import Mathlib

/-!
Verification of the line-oriented input stream (`inputStream`,
`src/hotspot/share/utilities/istream.{hpp,cpp}`) and the XML-flavored
scanner (`xmlInput`, `src/hotspot/share/utilities/xmlinput.{hpp,cpp}`).

The C++ code is shallowly embedded: bytes are `Nat` (`10` = newline,
`13` = carriage return, `0` = NUL), the scratch buffer of an
`inputStream` is a `List Nat` whose length plays the role of
`_buffer_size`, and every mutating member function becomes a pure
function from states to states.  Heap allocation is assumed to succeed
(the sticky-error path taken on allocation failure is kept in the
translation but is dead under that assumption).  C `while` loops become
fuel-indexed recursions; the fuel bounds used in theorems are shown (or
chosen) large enough that the fuel-exhaustion branch is never taken.
-/

namespace JdkIstream

/-! ## Byte-list helpers shared by the embedding -/

/-- Contiguous slice `[i, j)` of a byte list, mirroring a
`(char* + length)` view into the C buffer. -/
def slice (l : List Nat) (i j : Nat) : List Nat :=
  (l.drop i).take (j - i)

/-- The view of a byte sequence as a C string: everything up to the
first NUL byte (what `strlen`/`strcmp` can see). -/
def cstrOf (l : List Nat) : List Nat :=
  l.takeWhile (fun b => b ≠ 0)

/-- Overwrite the bytes of `l` starting at `off` with `data`
(`memcpy(&l[off], data, data.length)`; in-bounds in every call site). -/
def listWriteRange (l : List Nat) (off : Nat) (data : List Nat) : List Nat :=
  l.take off ++ data ++ l.drop (off + data.length)

/-- Index of the first newline byte in a list, if any; this is the
scanning loop of `inputStream::set_buffer_content`. -/
def findNL : List Nat → Option Nat
  | [] => none
  | b :: bs => if b = 10 then some 0 else (findNL bs).map (· + 1)

/-- The `strchr(s, c)` search for a non-NUL character `c`: stops at the
first NUL, returns the offset of the first hit. -/
def cstrFindChar : List Nat → Nat → Option Nat
  | [], _ => none
  | b :: bs, c =>
    if b = c then some 0
    else if b = 0 then none
    else (cstrFindChar bs c).map (· + 1)

/-- Number of newline bytes in a list. -/
def count10 (l : List Nat) : Nat := l.count 10

/-- C `isspace` on the default locale (space and the five control
whitespace characters). -/
def isspaceB (b : Nat) : Bool := b = 32 || (9 ≤ b && b ≤ 13)

/-- The `strncmp(a, b, n) == 0` test: compares at most `n` bytes,
stopping early at a common NUL. -/
def cstrncmpEq : List Nat → List Nat → Nat → Bool
  | _, _, 0 => true
  | [], [], _ + 1 => true
  | [], _ :: _, _ + 1 => false
  | _ :: _, [], _ + 1 => false
  | x :: a, y :: b, n + 1 =>
    if x ≠ y then false
    else if x = 0 then true
    else cstrncmpEq a b n

/-! ## The `inputStream` state

Fields mirror the C++ members.  `_buffer_size` is `buffer.length`;
`_input` is the bytes not yet produced by the `BlockInput` source
(`none` models a null `_input`, as in the string constructor), which is
exactly the behavior of `MemoryInput::read_input`.  `_must_free` and
the coverage counters carry no observable state and are dropped. -/

structure IStream where
  input : Option (List Nat)
  buffer : List Nat
  contentEnd : Nat
  beg : Nat
  en : Nat
  position : Nat
  lineno : Int
  lineEnding : Nat
deriving DecidableEq, Repr

/-- `SMALL_SIZE` (release value; the debug build shrinks it to 10). -/
def SMALL_SIZE : Nat := 240

/-- `BIG_SIZE` (release value). -/
def BIG_SIZE : Nat := 2048

def need_to_read (s : IStream) : Bool := s.en == s.contentEnd

def have_current_line (s : IStream) : Bool := s.en < s.contentEnd

def definitely_done (s : IStream) : Bool := s.buffer.length < s.en

/-- `error()`: `_end >= _buffer_size + 2`. -/
def IStream.error (s : IStream) : Bool := s.buffer.length + 2 ≤ s.en

/-- `clear_buffer()`. -/
def clear_buffer (s : IStream) : IStream :=
  { s with contentEnd := 0, beg := 0, en := 0, lineEnding := 0 }

/-- `set_buffer_content(content_start, content_end)`: install the given
content region and scan it for the first newline, overwriting it (and a
directly preceding carriage return) with NUL. -/
def set_buffer_content (s : IStream) (cs ce : Nat) : IStream :=
  if ce ≤ cs then clear_buffer s
  else
    match findNL (slice s.buffer cs ce) with
    | none =>
      { s with beg := cs, contentEnd := ce, lineEnding := 0, en := ce }
    | some k =>
      let b1 := s.buffer.set (cs + k) 0
      if 0 < k ∧ s.buffer.getD (cs + k - 1) 0 = 13 then
        { s with buffer := b1.set (cs + k - 1) 0, beg := cs, contentEnd := ce,
                 en := cs + k, lineEnding := 2, lineno := s.lineno + 1 }
      else
        { s with buffer := b1, beg := cs, contentEnd := ce,
                 en := cs + k, lineEnding := 1, lineno := s.lineno + 1 }

/-- `expand_buffer(new_length)`: requests at most `SMALL_SIZE` bytes are
served from the embedded small buffer (reached only with an empty
buffer, so no content copy happens there); larger requests reallocate,
carrying over the active content.  Allocation always succeeds in the
model, so the result `Bool` is always `true` (kept so call sites read
like the source). -/
def expand_buffer (s : IStream) (newLength : Nat) : Bool × IStream :=
  if newLength ≤ SMALL_SIZE then
    (true, { s with buffer := List.replicate SMALL_SIZE 0 })
  else
    (true, { s with
               buffer := s.buffer.take s.contentEnd
                           ++ List.replicate (newLength - s.contentEnd) 0 })

/-- `set_error(error_condition)`. -/
def set_error (s : IStream) (cond : Bool) : IStream :=
  if cond then
    { s with en := s.buffer.length + 2, lineEnding := 0 }
  else if s.error then
    { s with en := s.buffer.length + 1, lineEnding := 0 }
  else s

/-- `set_done()`. -/
def set_done (s : IStream) : IStream :=
  if definitely_done s then s
  else
    { s with contentEnd := s.buffer.length,
             beg := s.buffer.length + 1, en := s.buffer.length + 1,
             lineEnding := 0 }

/-- `prepare_to_fill_buffer(fill_offset, fill_length)`: pick the region
of the buffer the next read goes to, after optional first allocation,
clearing, compaction, or growth.  Returns `(fill_offset, fill_length,
updated stream)`. -/
def prepare_to_fill_buffer (s : IStream) : Nat × Nat × IStream :=
  let s := if s.buffer.length = 0 then (expand_buffer s SMALL_SIZE).2 else s
  if s.beg = s.en then
    (0, s.buffer.length, clear_buffer s)
  else
    let s :=
      if 0 < s.beg then
        let contentLen := s.contentEnd - s.beg
        { s with buffer := listWriteRange s.buffer 0 (slice s.buffer s.beg s.contentEnd),
                 contentEnd := contentLen, en := contentLen, beg := 0 }
      else s
    if s.en < s.buffer.length then
      (s.en, s.buffer.length - s.en, s)
    else
      let newSize := if s.buffer.length < BIG_SIZE then BIG_SIZE
                     else s.buffer.length + s.buffer.length / 2
      let r := expand_buffer s newSize
      if r.1 then (r.2.en, r.2.buffer.length - r.2.en, r.2)
      else (0, 0, set_error r.2 true)

/-- `read_input(buf, size)` of the attached source: `MemoryInput`
semantics (serve `min size remaining` bytes), or zero bytes for a null
`_input`. -/
def read_input (inp : Option (List Nat)) (size : Nat) : List Nat × Option (List Nat) :=
  match inp with
  | none => ([], none)
  | some bs => (bs.take size, some (bs.drop size))

/-- The `while (need_to_read())` loop of `fill_buffer`, indexed by fuel.
Each iteration that recurses consumed at least one byte of input, so
`remaining input + 2` fuel always suffices. -/
def fill_loop : Nat → IStream → Bool × IStream
  | 0, s => (true, s)
  | fuel + 1, s =>
    if ¬ need_to_read s then (true, s)
    else
      let p := prepare_to_fill_buffer s
      let fo := p.1
      let s1 := p.2.2
      if s1.error then (false, s1)
      else
        let r := read_input s1.input p.2.1
        let nr := r.1.length
        let s2 := { s1 with input := r.2, buffer := listWriteRange s1.buffer fo r.1 }
        if nr = 0 then
          if s2.beg = s2.en then (false, set_done s2)
          else
            -- pretend to read a newline, to complete the last partial line
            let s3 := { s2 with buffer := s2.buffer.set fo 10 }
            let s4 := set_buffer_content s3 s3.beg (fo + 1)
            (true, { s4 with lineEnding := 0 })
        else
          let s4 := set_buffer_content s2 s2.beg (fo + nr)
          if ¬ need_to_read s4 then (true, s4)
          else fill_loop fuel s4

/-- Fuel that always suffices for `fill_loop`. -/
def inputFuel (s : IStream) : Nat :=
  (match s.input with | none => 0 | some bs => bs.length) + 2

/-- `fill_buffer()`. -/
def fill_buffer (s : IStream) : Bool × IStream :=
  fill_loop (inputFuel s) s

/-- `preload_buffer()`. -/
def preload (s : IStream) : IStream :=
  if need_to_read s then (fill_buffer s).2 else s

/-- `next()`. -/
def IStream.next (s : IStream) : Bool × IStream :=
  let s := preload s
  if definitely_done s then (false, s)
  else
    let newBeg := s.en + 1
    let s := { s with position := s.position + (newBeg - s.beg) }
    let s := set_buffer_content s newBeg s.contentEnd
    if ¬ need_to_read s then (true, s)
    else fill_buffer s

/-- `current_line(size_t&)`: the sized current line (it may contain
embedded NULs) together with its reported length and the (possibly
refilled) stream. -/
def current_line_sized (s : IStream) : List Nat × Nat × IStream :=
  let s := preload s
  if definitely_done s then ([], s.en - s.beg, s)
  else (slice s.buffer s.beg s.en, s.en - s.beg, s)

/-- `current_line()`: the C-string view of the current line. -/
def current_line_cstr (s : IStream) : List Nat × IStream :=
  let s := preload s
  if definitely_done s then ([], s)
  else (cstrOf (s.buffer.drop s.beg), s)

/-- `current_line_length()`. -/
def current_line_length (s : IStream) : Nat × IStream :=
  let s := preload s
  (s.en - s.beg, s)

/-- `current_line_ending()`. -/
def current_line_ending (s : IStream) : List Nat × IStream :=
  let s := preload s
  (if s.lineEnding = 1 then [10]
   else if s.lineEnding = 2 then [13, 10]
   else [], s)

/-- `done()`. -/
def IStream.done (s : IStream) : Bool × IStream :=
  let s := preload s
  (definitely_done s, s)

/-- `save_line()`: a copy of the sized current line plus a trailing
NUL (embedded NULs are kept in the copy). -/
def save_line (s : IStream) : List Nat × IStream :=
  let r := current_line_sized s
  (r.1 ++ [0], r.2.2)

/-- `pushback_input(chars, length, overwrite_current_line)`.  The
`partial_line` test reads `chars[length-1]`; for `length = 0` the C
code reads one byte out of bounds, but the value is consulted only when
`pending == 0`, where both outcomes coincide, so the model fixes the
empty-list case to `true`. -/
def pushback_input (s : IStream) (chars : List Nat) (ow : Bool) : IStream :=
  let len := chars.length
  let partLine := chars.getLast? ≠ some 10
  let s := if ow then preload s else s
  let ow := ow && have_current_line s
  let pendingBeg := if ¬ definitely_done s then (if ow then s.en + 1 else s.beg) else 0
  let pending0 := if ¬ definitely_done s then s.contentEnd - pendingBeg else 0
  let sp :=
    if have_current_line s then
      let s := { s with lineno := s.lineno - 1 }
      if pendingBeg ≤ s.en then
        let s := { s with buffer := s.buffer.set s.en 10 }
        if s.lineEnding = 2 then
          ({ s with buffer := s.buffer.set (s.en - 1) 13 }, pending0)
        else if s.lineEnding = 0 then (s, pending0 - 1)
        else (s, pending0)
      else (s, pending0)
    else (s, pending0)
  let s := sp.1
  let pending := sp.2
  let buflen := len + (if pending ≠ 0 then pending else 1)
  let s := if s.buffer.length < buflen then (expand_buffer s buflen).2 else s
  let fillp0 := s.buffer.length
  let sf :=
    if 0 < pending then
      let f := fillp0 - pending
      (if f ≠ pendingBeg
       then { s with buffer := listWriteRange s.buffer f (slice s.buffer pendingBeg (pendingBeg + pending)) }
       else s, f)
    else if partLine then (s, fillp0 - 1) else (s, fillp0)
  let s := sf.1
  let fillp := sf.2 - len
  let s := { s with buffer := listWriteRange s.buffer fillp chars }
  set_buffer_content s fillp (fillp + len + pending)

/-- `pushback_input(const char* chars)`: length taken by `strlen`. -/
def pushback_cstr (s : IStream) (chars : List Nat) : IStream :=
  pushback_input s (cstrOf chars) false

/-- The empty stream built by the `inputStream()` constructor. -/
def emptyStream : IStream :=
  { input := none, buffer := [], contentEnd := 0, beg := 0, en := 0,
    position := 0, lineno := 0, lineEnding := 0 }

/-- The `inputStream(const char* chars, size_t length)` constructor:
inhale the whole string by pushback. -/
def mkStream (chars : List Nat) : IStream :=
  pushback_input emptyStream chars false

/-- Number of `next()` calls that return `true`, starting from `s` and
stopping at the first `false` (after which `next()` keeps returning
`false`, the stream being done). -/
def countNextTrue : Nat → IStream → Nat
  | 0, _ => 0
  | fuel + 1, s =>
    let r := s.next
    if r.1 then countNextTrue fuel r.2 + 1 else 0

end JdkIstream

namespace JdkXmlInput

open JdkIstream

/-! ## `xmlInput`: line classification and attribute parsing -/

/-- `xmlInput::LineKind`. -/
inductive LineKind where
  | TEXT | HEAD | TAIL | ELEM
deriving DecidableEq, Repr

/-- Modelled from the spec: the Special Six escape table of
`xmlstream.hpp` (not under `src/`): `&amp; &lt; &gt; &quot; &apos;
&#10;` decode to `& < > " ' \n`. -/
def escTable : List (List Nat × Nat) :=
  [([38,97,109,112,59], 38),
   ([38,108,116,59], 60),
   ([38,103,116,59], 62),
   ([38,113,117,111,116,59], 34),
   ([38,97,112,111,115,59], 39),
   ([38,35,49,48,59], 10)]

/-- Modelled from the spec: `xmlStream::MAX_ESCAPE_LEN`, the bound on
the byte length of a recognized escape (the longest entry, `&quot;`,
has six bytes). -/
def MAX_ESCAPE_LEN : Nat := 6

/-- Modelled from the spec: `xmlStream::find_escape(cp, len, ...)`
(in `xmlstream.cpp`, not under `src/`): if the first `len` bytes start
with a recognized escape, report its length and decoded byte. -/
def find_escape (l : List Nat) (len : Nat) : Option (Nat × Nat) :=
  (escTable.find? (fun e =>
    decide (e.1.length ≤ len) && decide ((l.take len).take e.1.length = e.1))).map
    (fun e => (e.1.length, e.2))

/-- Modelled from the spec: `xmlStream::unescape_in_place(str, len)`
(in `xmlstream.cpp`, not under `src/`): decode the Special Six escapes
left to right; unrecognized `&` text passes through.  Returns the
decoded bytes (the in-place C version leaves dead bytes after the new
length, which nothing reads). -/
def unescape_loop : Nat → List Nat → List Nat
  | 0, l => l
  | _ + 1, [] => []
  | fuel + 1, b :: bs =>
    if b = 38 then
      match find_escape (b :: bs) MAX_ESCAPE_LEN with
      | some (elen, u) => u :: unescape_loop fuel (bs.drop (elen - 1))
      | none => b :: unescape_loop fuel bs
    else b :: unescape_loop fuel bs

/-- Modelled from the spec: entry point of the unescape; each step of
the loop consumes at least one byte, so `length + 1` fuel always
suffices. -/
def unescape_in_place (l : List Nat) : List Nat :=
  unescape_loop (l.length + 1) l

/-- `is_sane_xml_name_start(c)`. -/
def is_sane_xml_name_start (c : Nat) : Bool :=
  (97 ≤ c && c ≤ 122) || (65 ≤ c && c ≤ 90) || c = 95

/-- `SANE_XML_NAME_EXCLUSIONS`: the Special Six characters (from the
spec's escape table, `xmlstream.hpp` being outside `src/`) followed by
`= ? /`. -/
def SANE_XML_NAME_EXCLUSIONS : List Nat := [38,60,62,34,39,10,61,63,47]

/-- The result of `xmlInput::do_scan()` for one line: the classification
fields, plus the line bytes after the in-place NUL writes. -/
structure ScanResult where
  kind : LineKind
  lineLength : Nat
  tagOffset : Nat
  tagEnd : Nat
  attrCount : Int
  line : List Nat
deriving DecidableEq, Repr

/-- `xmlInput::do_scan()`, acting on the sized current line `lp0`
(length `ll`).  Structural test, TAIL/ELEM/HEAD discrimination, NUL
injection after the tag body and at the first space, pending-attribute
detection; non-markup lines are TEXT and get unescaped in place. -/
def do_scan (lp0 : List Nat) : ScanResult :=
  let ll := lp0.length
  if 2 ≤ ll ∧ lp0.getD 0 0 = 60 ∧ lp0.getD (ll - 1) 0 = 62 then
    let k :=
      if lp0.getD 1 0 = 47 then (LineKind.TAIL, 2, ll - 1)
      else if lp0.getD (ll - 2) 0 = 47 then (LineKind.ELEM, 1, ll - 2)
      else if lp0.getD (ll - 2) 0 = 63 then (LineKind.ELEM, 1, ll - 2)
      else (LineKind.HEAD, 1, ll - 1)
    let lk := k.1
    let toff := k.2.1
    let ll2 := k.2.2
    let lp1 := lp0.set ll2 0
    let r :=
      if lk ≠ LineKind.TAIL then
        match cstrFindChar lp1 32 with
        | some e =>
          let lp2 := lp1.set e 0
          let ac : Int :=
            if (slice lp2 (e + 1) ll2).all (fun b => b = 32) then 0 else -1
          (lp2, e, ac)
        | none => (lp1, ll2, 0)
      else (lp1, ll2, 0)
    { kind := lk, lineLength := ll2, tagOffset := toff,
      tagEnd := r.2.1, attrCount := r.2.2, line := r.1 }
  else
    let dec := unescape_in_place lp0
    { kind := LineKind.TEXT, lineLength := dec.length, tagOffset := 0,
      tagEnd := 0, attrCount := 0, line := dec }

/-- One `(name, value)` entry of the attribute index (`xmlInput::AVS`);
`_name_size`/`_value_size` are the list lengths. -/
structure AVS where
  name : List Nat
  value : List Nat
deriving DecidableEq, Repr

/-- The `while (scan < limit)` loop of `xmlInput::parse_attrs()`,
indexed by fuel (`limit + 1` always suffices, the cursor strictly
advancing).  Returns the attribute index, the `_error_offset` if
parsing aborted, and the line after in-place NUL writes. -/
def parse_attrs_loop : Nat → List Nat → Nat → Nat → List AVS →
    List AVS × Option Nat × List Nat
  | 0, lp, _, _, acc => (acc, none, lp)
  | fuel + 1, lp, scan, limit, acc =>
    if limit ≤ scan then (acc, none, lp)
    else if isspaceB (lp.getD scan 0) then
      parse_attrs_loop fuel lp (scan + 1) limit acc
    else if ¬ is_sane_xml_name_start (lp.getD scan 0) then (acc, some scan, lp)
    else
      let nameOff := scan
      match cstrFindChar (lp.drop nameOff) 61 with
      | none => (acc, some nameOff, lp)
      | some d =>
        let eqPos := nameOff + d
        let lp := lp.set eqPos 0
        let name := slice lp nameOff eqPos
        let scan := eqPos + 1
        if lp.getD scan 0 = 39 then
          let valueOff := scan + 1
          match cstrFindChar (lp.drop valueOff) 39 with
          | none => (acc, some valueOff, lp)
          | some d2 =>
            let qPos := valueOff + d2
            let lp := lp.set qPos 0
            let value := unescape_in_place (slice lp valueOff qPos)
            parse_attrs_loop fuel lp (qPos + 1) limit
              (acc ++ [{ name := name, value := value }])
        else
          let valueOff := scan
          match cstrFindChar (lp.drop valueOff) 32 with
          | none =>
            let lp := lp.set limit 0
            let value := unescape_in_place (slice lp valueOff limit)
            parse_attrs_loop fuel lp limit limit
              (acc ++ [{ name := name, value := value }])
          | some d2 =>
            let spPos := valueOff + d2
            let lp := lp.set spPos 0
            let value := unescape_in_place (slice lp valueOff spPos)
            parse_attrs_loop fuel lp (spPos + 1) limit
              (acc ++ [{ name := name, value := value }])

/-- `xmlInput::parse_attrs()`: scan from `tag_end + 1` to
`_line_length`. -/
def parse_attrs (lp : List Nat) (tagEnd limit : Nat) :
    List AVS × Option Nat × List Nat :=
  parse_attrs_loop (limit + 1) lp (tagEnd + 1) limit []

/-- The search loop of `attr_index(name, name_len)`: first entry whose
size matches and whose bytes `strncmp`-equal the probe. -/
def attr_find : List AVS → List Nat → Nat → Int
  | [], _, _ => -1
  | a :: rest, nm, n =>
    if a.name.length = nm.length ∧ cstrncmpEq a.name nm nm.length then (n : Int)
    else attr_find rest nm (n + 1)

/-- `attr_index(const char* name, size_t name_len)` with a non-null
probe whose length is `nm.length`. -/
def attr_index_len (attrs : List AVS) (nm : List Nat) : Int :=
  if nm.length = 0 then -1 else attr_find attrs nm 0

/-- `attr_index(const char* name)`: null yields `-1`, otherwise the
probe is measured by `strlen`. -/
def attr_index_c (attrs : List AVS) (nm : Option (List Nat)) : Int :=
  match nm with
  | none => -1
  | some v => attr_index_len attrs (cstrOf v)

/-- `attr_indexer(n, is_value, lenp)`: the returned pointer, and what
(if anything) was stored through `lenp`. -/
def attr_indexer (attrs : List AVS) (n : Int) (isValue : Bool) :
    Option (List Nat) × Option Nat :=
  if n < 0 ∨ (attrs.length : Int) ≤ n then (none, none)
  else
    let a := attrs.getD n.toNat { name := [], value := [] }
    (some (if isValue then a.value else a.name),
     some (if isValue then a.value.length else a.name.length))

/-- `attr_name(n)`. -/
def attr_name (attrs : List AVS) (n : Int) : Option (List Nat) :=
  (attr_indexer attrs n false).1

/-- `attr_value(n)`. -/
def attr_value (attrs : List AVS) (n : Int) : Option (List Nat) :=
  (attr_indexer attrs n true).1

end JdkXmlInput

namespace JdkXmlScan

open JdkIstream JdkXmlInput

/-! ## The `scan_elem` pattern matcher (`XMLPartialScanner`)

Format strings are byte lists; the C pointers `_fmt_base`, `_fp`,
`_fp0`, `_fp_base`, `_fp_limit`, `_fp_next_base`, `_prematch0/1` become
indices into the format.  `_base`/`_limit` hold the tag, attribute
name, or attribute value being matched (`none` models the null base of
a missing optional attribute); the conversion outputs collected through
the `va_list` become the ordered list `out`.  `bad_scanf_syntax`
(fatal in debug builds, a plain `false` in release builds) is modelled
by the release behavior plus a `fatal` flag. -/

/-- The view of one scanned line consumed by `va_scan_elem`: its kind,
its tag (null for TEXT), and its parsed attribute index. -/
structure XmlView where
  kind : LineKind
  tag : Option (List Nat)
  attrs : List AVS
deriving DecidableEq, Repr

/-- View of a raw line: `do_scan` it and, if attributes are pending,
`parse_attrs` them (what `scan()` + `attr_count()` compute). -/
def scanLine (lp : List Nat) : XmlView :=
  let r := do_scan lp
  let attrs := if r.attrCount < 0 then (parse_attrs r.line r.tagEnd r.lineLength).1
               else []
  { kind := r.kind,
    tag := if r.tagOffset = 0 then none else some (cstrOf (r.line.drop r.tagOffset)),
    attrs := attrs }

/-- `_which`: `'\0'`, `'T'`, `'A'`, `'V'`, `'E'`, `'F'`. -/
inductive SegW where
  | N | T | A | V | E | F
deriving DecidableEq, Repr

/-- One value stored through the `va_list`: an integer destination, a
`char*` destination (null or the C string it points at), or a
float/double destination. -/
inductive StoreVal where
  | iv (n : Int)
  | pv (p : Option (List Nat))
  | fv (q : Rat)
deriving DecidableEq, Repr

structure Scanner where
  fmt : List Nat
  fpBase : Nat
  fpLimit : Nat
  fpNextBase : Nat
  totalMatch : Bool
  prematch0 : Option Nat
  prematch1 : Nat
  fp : Nat
  fp0 : Nat
  which : SegW
  attrNum : Int
  base : Option (List Nat)
  limit : Nat
  scan : Nat
  lastN : Nat
  out : List StoreVal
  fatal : Bool
deriving DecidableEq, Repr

/-- `find_char(ch, beg, end)`: `strchr` clamped to `end`. -/
def find_char (fmt : List Nat) (ch b e : Nat) : Nat :=
  match cstrFindChar (fmt.drop b) ch with
  | none => e
  | some d => if e ≤ b + d then e else b + d

/-- `starts_with_char(ch, beg, end)`. -/
def starts_with_char (fmt : List Nat) (ch b e : Nat) : Bool :=
  b < e && fmt.getD b 0 == ch

/-- `starts_with_str(str, beg, end)`. -/
def starts_with_str (fmt str : List Nat) (b e : Nat) : Bool :=
  if str.length ≤ 1 then
    str.length == 0 || starts_with_char fmt (str.getD 0 0) b e
  else
    b + str.length ≤ e && slice fmt b (b + str.length) == str

/-- The `while` loop of `find_str` (which, in the source, can fail to
make progress when the first byte matches but the whole string does
not; the fuel-out branch stands in for that diverging case, which no
well-formed format reaches). -/
def find_str_loop (fmt str : List Nat) : Nat → Nat → Nat → Nat
  | 0, _, e => e
  | fuel + 1, b, e =>
    if ¬ (b + str.length ≤ e) then e
    else
      let b1 := find_char fmt (str.getD 0 0) b e
      if b1 = e then e
      else if starts_with_str fmt str b1 e then b1
      else find_str_loop fmt str fuel b1 e

/-- `find_str(str, beg, end)`. -/
def find_str (fmt str : List Nat) (b e : Nat) : Nat :=
  if str.length = 1 then find_char fmt (str.getD 0 0) b e
  else find_str_loop fmt str (e + 1) b e

/-- `find_char_class(chars, beg, end)`. -/
def find_char_class (fmt : List Nat) : List Nat → Nat → Nat → Nat
  | [], _, e => e
  | c :: rest, b, e =>
    let f := find_char fmt c b e
    if f ≠ e then f else find_char_class fmt rest b e

/-- `is_char_class_in(chars, beg, end)`. -/
def is_char_class_in (fmt chars : List Nat) (b e : Nat) : Bool :=
  find_char_class fmt chars b e ≠ e

/-- `looking_at_escape(fp, esc_len, unesc)`: recognize a Special Six
escape at `fp`, length-limited by the segment and `MAX_ESCAPE_LEN`. -/
def looking_at_escape (sc : Scanner) (fp : Nat) : Option (Nat × Nat) :=
  if sc.fmt.getD fp 0 ≠ 38 then none
  else
    let len := min (sc.fpLimit - fp) MAX_ESCAPE_LEN
    find_escape (sc.fmt.drop fp) len

/-- The scanning loop of `skip_plain_chars(fp)`. -/
def skip_plain_loop (sc : Scanner) : Nat → Nat → Nat
  | 0, fp => fp
  | fuel + 1, fp =>
    if sc.fpLimit ≤ fp then fp
    else
      let c := sc.fmt.getD fp 0
      if c = 42 ∨ c = 32 ∨ c = 37 then fp
      else if c = 38 ∧ (looking_at_escape sc fp).isSome then fp
      else skip_plain_loop sc fuel (fp + 1)

/-- `skip_plain_chars(fp)`. -/
def skip_plain_chars (sc : Scanner) (fp : Nat) : Nat :=
  skip_plain_loop sc (sc.fpLimit + 1) fp

/-- `skip_conv(fp, skipc)`: skip one `%...skipc` conversion, the middle
admitting `l` and `*`. -/
def skip_conv (sc : Scanner) (fp skipc : Nat) : Nat :=
  if fp < sc.fpLimit ∧ sc.fmt.getD fp 0 = 37 then
    let p := fp + 1
    let mid := ((sc.fmt.drop p).take (sc.fpLimit - p)).takeWhile
                 (fun c => c == 108 || c == 42)
    let p := p + mid.length
    if p < sc.fpLimit ∧ sc.fmt.getD p 0 = skipc then p + 1 else fp
  else fp

/-- `prematch_char()`: the one-character lookahead bound for `%p`. -/
def prematch_char (sc : Scanner) : Nat × Scanner :=
  let lafp := skip_conv sc sc.fp 110
  if sc.fpLimit ≤ lafp then (0, sc)
  else
    let limitc := sc.fmt.getD lafp 0
    let sc := { sc with prematch0 := some lafp, prematch1 := lafp }
    if limitc = 37 then
      if sc.fmt.getD (lafp + 1) 0 = 37 then (37, { sc with prematch1 := lafp + 2 })
      else (32, { sc with prematch1 := lafp + 1 })
    else if limitc = 42 ∨ limitc = 32 then (32, { sc with prematch1 := lafp + 1 })
    else if limitc = 38 then
      match looking_at_escape sc lafp with
      | some (el, un) => (un, { sc with prematch1 := lafp + el })
      | none => (38, { sc with prematch1 := lafp + 1 })
    else (limitc, { sc with prematch1 := lafp + 1 })

/-- `bad_scanf_syntax(what)`: release behavior (return `false`), plus a
flag recording that the debug build would have aborted. -/
def bad_scanf_syntax (sc : Scanner) : Bool × Scanner :=
  (false, { sc with fatal := true })

/-- `must_be_simple(what)`. -/
def must_be_simple (sc : Scanner) : Bool × Scanner :=
  if sc.which = SegW.V ∧ ¬ sc.totalMatch then (true, sc)
  else bad_scanf_syntax sc

/-- `must_be_last(what)` (via `is_last_format`). -/
def must_be_last (sc : Scanner) : Bool × Scanner :=
  if sc.fp = sc.fpLimit then (true, sc) else bad_scanf_syntax sc

/-- The C integral conversion `(T)x` for a `w`-bit signed `T`. -/
def wrapCast (w : Nat) (v : Int) : Int :=
  let m := v % ((2 ^ w : Nat) : Int)
  if m < ((2 ^ (w - 1) : Nat) : Int) then m else m - ((2 ^ w : Nat) : Int)

/-- `store_result(ap, result)` for an integral destination of width
`w`. -/
def store_iv (sc : Scanner) (w : Nat) (v : Int) : Scanner :=
  { sc with out := sc.out ++ [StoreVal.iv (wrapCast w v)] }

/-- `store_result(ap, result)` for a `char*` destination. -/
def store_pv (sc : Scanner) (p : Option (List Nat)) : Scanner :=
  { sc with out := sc.out ++ [StoreVal.pv p] }

/-- `match_all` (the `*` token). -/
def match_all (sc : Scanner) : Bool × Scanner :=
  let r := must_be_last sc
  if ¬ r.1 then (false, r.2)
  else (true, { r.2 with scan := r.2.limit })

/-- `match_spaces` (a space in the format). -/
def match_spaces (sc : Scanner) : Bool × Scanner :=
  let r := must_be_simple sc
  if ¬ r.1 then (false, r.2)
  else
    let sc := r.2
    let bl := sc.base.getD []
    let adv := (((bl.drop sc.scan).take (sc.limit - sc.scan)).takeWhile isspaceB).length
    (true, { sc with scan := sc.scan + adv })

/-- `match_position` (`%n`, `%ln`, `%*n`); `w = none` is the discarded
`%*n` form. -/
def match_position (sc : Scanner) (w : Option Nat) : Bool × Scanner :=
  if sc.fp0 = sc.fpBase then
    if sc.which = SegW.T then bad_scanf_syntax sc
    else
      let sc := match w with
                | some wd => store_iv sc wd sc.attrNum
                | none => sc
      if sc.fp = sc.fpLimit then (true, { sc with scan := sc.limit })
      else (true, sc)
  else if sc.totalMatch then
    (false, (must_be_simple sc).2)
  else
    let result : Int := (sc.scan : Int) - (sc.lastN : Int)
    let sc := { sc with lastN := sc.scan }
    let sc := match w with
              | some wd => store_iv sc wd result
              | none => sc
    (true, sc)

/-- The body of `match_strptr` after the gate: capture the result
pointer, advance `_scan` under the prematch bound, optionally write the
`%0p` NUL, store.  The stored value is the C string the pointer
designates after the writes of this call. -/
def match_strptr_core (sc : Scanner) (nullTerminate : Bool) (limitc : Nat) :
    Bool × Scanner :=
  match sc.base with
  | none => (true, store_pv sc none)
  | some bl =>
    let resultOff := sc.scan
    if limitc = 0 then
      (true, store_pv { sc with scan := sc.limit } (some (cstrOf (bl.drop resultOff))))
    else if limitc = 32 then
      let adv := (((bl.drop sc.scan).take (sc.limit - sc.scan)).takeWhile
                    (fun b => ¬ isspaceB b)).length
      let sc := { sc with scan := sc.scan + adv, prematch0 := none }
      if nullTerminate ∧ sc.scan < sc.limit then
        let bl2 := bl.set sc.scan 0
        (true, store_pv { sc with base := some bl2, scan := sc.scan + 1 }
                 (some (cstrOf (bl2.drop resultOff))))
      else (true, store_pv sc (some (cstrOf (bl.drop resultOff))))
    else
      let adv := (((bl.drop sc.scan).take (sc.limit - sc.scan)).takeWhile
                    (fun b => b ≠ limitc)).length
      let sc := { sc with scan := sc.scan + adv }
      if sc.limit ≤ sc.scan then
        (true, store_pv { sc with prematch0 := none } (some (cstrOf (bl.drop resultOff))))
      else if nullTerminate then
        let bl2 := bl.set sc.scan 0
        (true, store_pv { sc with base := some bl2, scan := sc.scan + 1 }
                 (some (cstrOf (bl2.drop resultOff))))
      else (true, store_pv sc (some (cstrOf (bl.drop resultOff))))

/-- `match_strptr` (`%p` and `%0p`). -/
def match_strptr (sc : Scanner) (zeroP : Bool) : Bool × Scanner :=
  let nullTerminate := zeroP ∧ sc.which = SegW.V
  let pc := prematch_char sc
  let limitc := pc.1
  let sc := pc.2
  if limitc ≠ 0 ∨ 0 < sc.scan then
    let r := must_be_simple sc
    if ¬ r.1 then (false, r.2)
    else match_strptr_core r.2 nullTerminate limitc
  else match_strptr_core sc nullTerminate limitc

/-- Value of a digit in the given base, if it is one. -/
def digitVal (base c : Nat) : Option Nat :=
  let v := if 48 ≤ c ∧ c ≤ 57 then some (c - 48)
           else if 97 ≤ c ∧ c ≤ 102 then some (c - 87)
           else if 65 ≤ c ∧ c ≤ 70 then some (c - 55)
           else none
  match v with
  | some d => if d < base then some d else none
  | none => none

/-- Accumulate a run of digits: value and count. -/
def digitsAcc (base : Nat) : List Nat → Nat → Nat → Nat × Nat
  | [], acc, cnt => (acc, cnt)
  | c :: rest, acc, cnt =>
    match digitVal base c with
    | none => (acc, cnt)
    | some v => digitsAcc base rest (acc * base + v) (cnt + 1)

/-- Modelled from the spec: C `strtoll(p, &q, base)` (libc, outside
`src/`): optional whitespace and sign, optional `0x` prefix for base 16
or 0, auto base detection for base 0, then a digit run.  Returns the
value and the number of bytes consumed, or `none` when no digits match
(`p == q`).  Range clamping is not modelled. -/
def strtollParse (l : List Nat) (numBase : Nat) : Option (Int × Nat) :=
  let ws := (l.takeWhile isspaceB).length
  let l1 := l.drop ws
  let sgn : Int × Nat :=
    match l1 with
    | 45 :: _ => (-1, 1)
    | 43 :: _ => (1, 1)
    | _ => (1, 0)
  let l2 := l1.drop sgn.2
  let hexPfx : Bool :=
    match l2 with
    | 48 :: x :: rest =>
      (numBase == 0 || numBase == 16) && (x == 120 || x == 88) &&
        (digitVal 16 (rest.getD 0 0)).isSome
    | _ => false
  let b := if numBase ≠ 0 then numBase
           else if hexPfx then 16
           else match l2 with
                | 48 :: _ => 8
                | _ => 10
  let poff := if hexPfx then 2 else 0
  let r := digitsAcc b (l2.drop poff) 0 0
  if r.2 = 0 then none
  else some (sgn.1 * (r.1 : Int), ws + sgn.2 + poff + r.2)

/-- Modelled from the spec: C `strtod(p, &q)` (libc, outside `src/`)
on decimal literals: optional whitespace and sign, digits with an
optional fraction (at least one digit overall), an optional exponent.
Returns the exact rational value and the bytes consumed.  Hex floats,
`inf`/`nan`, and rounding to binary are not modelled. -/
def strtodParse (l : List Nat) : Option (Rat × Nat) :=
  let ws := (l.takeWhile isspaceB).length
  let l1 := l.drop ws
  let sgn : Int × Nat :=
    match l1 with
    | 45 :: _ => (-1, 1)
    | 43 :: _ => (1, 1)
    | _ => (1, 0)
  let l2 := l1.drop sgn.2
  let ip := digitsAcc 10 l2 0 0
  let l3 := l2.drop ip.2
  let fr : Nat × Nat × Nat :=
    match l3 with
    | 46 :: rest =>
      let d := digitsAcc 10 rest 0 0
      if ip.2 + d.2 = 0 then (0, 0, 0) else (d.1, d.2, d.2 + 1)
    | _ => (0, 0, 0)
  if ip.2 + fr.2.1 = 0 then none
  else
    let l4 := l3.drop fr.2.2
    let ex : Int × Nat :=
      match l4 with
      | e :: rest =>
        if e = 101 ∨ e = 69 then
          let es : Int × Nat :=
            match rest with
            | 45 :: _ => (-1, 1)
            | 43 :: _ => (1, 1)
            | _ => (1, 0)
          let ed := digitsAcc 10 (rest.drop es.2) 0 0
          if ed.2 = 0 then (0, 0) else (es.1 * (ed.1 : Int), 1 + es.2 + ed.2)
        else (0, 0)
      | [] => (0, 0)
    let num1 : Int := sgn.1 * ((ip.1 * 10 ^ fr.2.1 + fr.1 : Nat) : Int)
    let q : Rat :=
      if 0 ≤ ex.1 then mkRat (num1 * ((10 ^ ex.1.toNat : Nat) : Int)) (10 ^ fr.2.1)
      else mkRat num1 (10 ^ fr.2.1 * 10 ^ (-ex.1).toNat)
    some (q, ws + sgn.2 + ip.2 + fr.2.2 + ex.2)

/-- Truncation toward zero of a rational, as the C conversion from
`double` to `long long` performs. -/
def truncQ (q : Rat) : Int := Int.tdiv q.num (q.den : Int)

/-- `match_strtol` (`%d`, `%ld`, `%lld`, `%x`, `%lx`, `%llx`, `%i`,
`%li`, `%lli`): partial parse by `strtoll`. -/
def match_strtol (sc : Scanner) (w numBase : Nat) : Bool × Scanner :=
  let r := must_be_simple sc
  if ¬ r.1 then (false, r.2)
  else
    let sc := r.2
    let bl := sc.base.getD []
    match strtollParse (bl.drop sc.scan) numBase with
    | none => (false, sc)
    | some (v, consumed) =>
      (true, store_iv { sc with scan := sc.scan + consumed } w v)

/-- `match_strtod` (`%f`, `%lf`): the parse is by `strtod`, but the
source binds its `double` result to a `long long` local
(`long long result = strtod(p, &q);`), so the value stored into the
float/double destination is the truncation. -/
def match_strtod (sc : Scanner) : Bool × Scanner :=
  let r := must_be_simple sc
  if ¬ r.1 then (false, r.2)
  else
    let sc := r.2
    let bl := sc.base.getD []
    match strtodParse (bl.drop sc.scan) with
    | none => (false, sc)
    | some (q, consumed) =>
      let result : Int := truncQ q
      (true, { sc with scan := sc.scan + consumed,
                       out := sc.out ++ [StoreVal.fv (mkRat result 1)] })

/-- `match_literal` (plain text, `%%`, and escapes). -/
def match_literal (sc : Scanner) : Bool × Scanner :=
  if sc.prematch0 = some sc.fp0 then
    (true, { sc with fp := sc.prematch1, prematch0 := none })
  else
    let p1 := if sc.fmt.getD sc.fp0 0 = 37 then sc.fp0 + 1 else sc.fp0
    if sc.which ≠ SegW.V ∧ ¬ is_sane_xml_name_start (sc.fmt.getD p1 0) then
      bad_scanf_syntax sc
    else
      let q := skip_plain_chars sc sc.fp
      let sc := { sc with fp := q }
      let esc := if p1 = q then looking_at_escape sc p1 else none
      let sc := match esc with
                | some (el, _) => { sc with fp := sc.fp + el }
                | none => sc
      let pbytes := match esc with
                    | some (_, un) => [un]
                    | none => slice sc.fmt p1 q
      match sc.base with
      | none =>
        if sc.which = SegW.A then (true, { sc with scan := sc.scan + 1 })
        else must_be_simple sc
      | some bl =>
        if sc.limit < sc.scan + pbytes.length then (false, sc)
        else if slice bl sc.scan (sc.scan + pbytes.length) ≠ pbytes then (false, sc)
        else (true, { sc with scan := sc.scan + pbytes.length })

/-- `bad_percent_pattern` (a `%` matching no known conversion). -/
def bad_percent_pattern (sc : Scanner) : Bool × Scanner :=
  bad_scanf_syntax sc

/-- One entry of `DO_SCANF_OPTIONS`: the token and its matcher. -/
inductive ScanAct where
  | all | spaces
  | pos (w : Option Nat)
  | sptr (zero : Bool)
  | tol (w numBase : Nat)
  | tod
  | lit
  | badpct
deriving DecidableEq, Repr

/-- The `DO_SCANF_OPTIONS` table, in source order (`int` is 32 bits,
`long` and `long long` 64). -/
def scanfOptions : List (List Nat × ScanAct) :=
  [([42], ScanAct.all),
   ([32], ScanAct.spaces),
   ([37,110], ScanAct.pos (some 32)),
   ([37,108,110], ScanAct.pos (some 64)),
   ([37,42,110], ScanAct.pos none),
   ([37,112], ScanAct.sptr false),
   ([37,48,112], ScanAct.sptr true),
   ([37,100], ScanAct.tol 32 10),
   ([37,108,100], ScanAct.tol 64 10),
   ([37,108,108,100], ScanAct.tol 64 10),
   ([37,120], ScanAct.tol 32 16),
   ([37,108,120], ScanAct.tol 64 16),
   ([37,108,108,120], ScanAct.tol 64 16),
   ([37,105], ScanAct.tol 32 0),
   ([37,108,105], ScanAct.tol 64 0),
   ([37,108,108,105], ScanAct.tol 64 0),
   ([37,102], ScanAct.tod),
   ([37,108,102], ScanAct.tod),
   ([37,37], ScanAct.lit),
   ([37], ScanAct.badpct),
   ([], ScanAct.lit)]

/-- `consume_format(what)`. -/
def consume_format (sc : Scanner) (what : List Nat) : Bool × Scanner :=
  if sc.fpLimit < sc.fp + what.length then (false, sc)
  else if slice sc.fmt sc.fp (sc.fp + what.length) = what then
    (true, { sc with fp := sc.fp + what.length })
  else (false, sc)

/-- Run one matcher. -/
def run_act (sc : Scanner) : ScanAct → Bool × Scanner
  | ScanAct.all => match_all sc
  | ScanAct.spaces => match_spaces sc
  | ScanAct.pos w => match_position sc w
  | ScanAct.sptr z => match_strptr sc z
  | ScanAct.tol w b => match_strtol sc w b
  | ScanAct.tod => match_strtod sc
  | ScanAct.lit => match_literal sc
  | ScanAct.badpct => bad_percent_pattern sc

/-- The option chain of `match()` for the current `keyc`: first entry
whose token starts with `keyc` and consumes; falling off the end is
`bad_scanf_syntax`. -/
def match_dispatch (sc : Scanner) (keyc : Nat) :
    List (List Nat × ScanAct) → Bool × Scanner
  | [] => bad_scanf_syntax sc
  | (what, act) :: rest =>
    if what.getD 0 0 = keyc then
      let c := consume_format sc what
      if c.1 then run_act c.2 act
      else match_dispatch sc keyc rest
    else match_dispatch sc keyc rest

/-- The `while (_fp < _fp_limit)` loop of `match()`, plus the final
`_scan == _limit || _total_match` check. -/
def match_loop : Nat → Scanner → Bool × Scanner
  | 0, sc => (false, sc)
  | fuel + 1, sc =>
    if sc.fpLimit ≤ sc.fp then
      ((sc.scan == sc.limit) || sc.totalMatch, sc)
    else
      let sc := { sc with fp0 := sc.fp }
      let keyc0 := sc.fmt.getD sc.fp 0
      let keyc := if keyc0 = 37 ∨ keyc0 = 42 ∨ keyc0 = 32 then keyc0 else 0
      let r := match_dispatch sc keyc scanfOptions
      if r.1 then match_loop fuel r.2 else (false, r.2)

/-- `match(ap)`. -/
def do_match (sc : Scanner) : Bool × Scanner :=
  match_loop (sc.fmt.length + 1)
    { sc with fp := sc.fpBase, scan := 0, lastN := 0 }

/-- `finish_segment(ap)`. -/
def finish_segment (sc : Scanner) : Bool × Scanner :=
  if sc.which = SegW.F then (false, sc)
  else
    let r := do_match sc
    let status :=
      if r.2.which = SegW.T ∧ ¬ r.2.totalMatch ∧ r.2.limit = 0 then false
      else r.1
    (status, r.2)

/-- `next_segment(which)`: advance to the next `T`/`A`/`V` slice of the
format.  (The source line `_which == 'F';` in the `'T'` case is a
no-op comparison and is not translated.) -/
def next_segment (sc : Scanner) (w : SegW) : Bool × Scanner :=
  if sc.which = SegW.F then (false, sc)
  else
    let sc := { sc with fp := 0, fp0 := 0 }
    match w with
    | SegW.T =>
      let fpBase := 0
      let fl := find_char sc.fmt 32 fpBase sc.fmt.length
      let fpNextBase := if fl < sc.fmt.length then fl + 1 else fl
      let total := sc.fmt.getD (fl - 1) 0 = 63
      let fpLimit := if total then fl - 1 else fl
      let sc := { sc with fpBase := fpBase, fpLimit := fpLimit,
                          fpNextBase := fpNextBase, totalMatch := total }
      if fpBase = fpLimit ∨
         (¬ is_sane_xml_name_start (sc.fmt.getD fpBase 0) ∧
          ¬ (sc.fmt.getD fpBase 0 = 37 ∨ sc.fmt.getD fpBase 0 = 42)) ∨
         is_char_class_in sc.fmt SANE_XML_NAME_EXCLUSIONS fpBase fpLimit then
        bad_scanf_syntax sc
      else (true, { sc with which := SegW.T })
    | SegW.A =>
      let sc := { sc with which := SegW.F }
      let skip := (((sc.fmt.drop sc.fpNextBase).take (sc.fmt.length - sc.fpNextBase)).takeWhile
                     (fun c => c == 32)).length
      let fpBase := sc.fpNextBase + skip
      if fpBase = sc.fmt.length then
        (false, { sc with fpBase := fpBase, fpLimit := sc.fmt.length, which := SegW.E })
      else
        let fl := find_str sc.fmt [61, 39] fpBase sc.fmt.length
        let total := sc.fmt.getD (fl - 1) 0 = 63
        let fpLimit := if total then fl - 1 else fl
        let sc := { sc with fpBase := fpBase, fpLimit := fpLimit,
                            fpNextBase := fl, totalMatch := total }
        if (¬ total ∧ fpLimit = fpBase) ∨ fl = sc.fmt.length then
          bad_scanf_syntax sc
        else if ¬ (is_sane_xml_name_start (sc.fmt.getD fpBase 0) ∨
                   (sc.fmt.getD fpBase 0 = 37 ∨ sc.fmt.getD fpBase 0 = 42) ∨
                   fpLimit = fpBase) ∨
                is_char_class_in sc.fmt SANE_XML_NAME_EXCLUSIONS fpBase fpLimit then
          bad_scanf_syntax sc
        else
          let sc := { sc with
                        fpNextBase := if fl < sc.fmt.length then fl + 2
                                      else sc.fpNextBase }
          (true, { sc with which := SegW.A })
    | SegW.V =>
      let sc := { sc with which := SegW.F }
      let fpBase := sc.fpNextBase
      let fpLimit := find_char sc.fmt 39 fpBase sc.fmt.length
      let sc := { sc with fpBase := fpBase, fpLimit := fpLimit }
      if fpLimit = sc.fmt.length then bad_scanf_syntax sc
      else (true, { sc with fpNextBase := fpLimit + 1, which := SegW.V })
    | _ => (false, { sc with which := SegW.F })

/-- `load_common(attr_num, base, limit)` (the limit is the `strlen` of
the base, zero for a null base). -/
def load_common (sc : Scanner) (attrNum : Int) (base : Option (List Nat)) : Scanner :=
  { sc with attrNum := attrNum, base := base,
            limit := (base.getD []).length, scan := 0 }

/-- `load_tag()`. -/
def load_tag (sc : Scanner) (v : XmlView) : Scanner :=
  load_common sc (-1) (some (match v.tag with | none => [] | some t => cstrOf t))

/-- `load_attr(attr_num)` (negative means the missing optional
attribute: null base). -/
def load_attr (sc : Scanner) (v : XmlView) (attrNum : Int) : Scanner :=
  if attrNum < 0 then load_common sc (-1) none
  else load_common sc attrNum (some (cstrOf ((attr_name v.attrs attrNum).getD [])))

/-- `load_value(attr_num)`. -/
def load_value (sc : Scanner) (v : XmlView) (attrNum : Int) : Scanner :=
  if attrNum < 0 then load_common sc (-1) none
  else load_common sc attrNum (some (cstrOf ((attr_value v.attrs attrNum).getD [])))

/-- The inner loop of `ln_skip` of `literal_name`: repeatedly skip `%n`
conversions. -/
def ln_skip_loop (sc : Scanner) : Nat → Nat → Nat
  | 0, fp => fp
  | fuel + 1, fp =>
    let nx := skip_conv sc fp 110
    if fp < nx then ln_skip_loop sc fuel nx else fp

/-- `literal_name(length)`: the literal attribute name of the current
`A` segment, if the segment is `%n`-escapes around plain name text. -/
def literal_name (sc : Scanner) : Option (List Nat) :=
  let fp := ln_skip_loop sc (sc.fpLimit + 1) sc.fpBase
  let fp2 := skip_plain_chars sc fp
  let resultLen := fp2 - fp
  let fp3 := ln_skip_loop sc (sc.fpLimit + 1) fp2
  if fp3 = sc.fpLimit ∧ 0 < resultLen then some (slice sc.fmt fp fp2)
  else none

/-- The `for (;;)` attribute loop of `va_scan_elem`; the fuel
`fmt.length + 2` suffices, `_fp_next_base` strictly advancing. -/
def scan_loop : Nat → Scanner → XmlView → Int → Bool → Bool → Scanner × Int
  | 0, sc, _, na, _, _ => (sc, na)
  | fuel + 1, sc, v, nextAttr, sawLit, sawSeq =>
    let r := next_segment sc SegW.A
    if ¬ r.1 then (r.2, nextAttr)
    else
      let sc := r.2
      let t :=
        match literal_name sc with
        | some fn => (attr_index_len v.attrs fn, nextAttr, true, sawSeq)
        | none =>
          let ta := nextAttr
          let ta := if (v.attrs.length : Int) ≤ ta then (-1 : Int) else ta
          (ta, nextAttr + 1, sawLit, true)
      let thisAttr := t.1
      let nextAttr := t.2.1
      let sawLit := t.2.2.1
      let sawSeq := t.2.2.2
      if sawLit ∧ sawSeq then (( bad_scanf_syntax sc).2, nextAttr)
      else if thisAttr < 0 ∧ ¬ sc.totalMatch then (sc, nextAttr)
      else
        let sc := load_attr sc v thisAttr
        let r2 := finish_segment sc
        if ¬ r2.1 then (r2.2, nextAttr)
        else
          let r3 := next_segment r2.2 SegW.V
          if ¬ r3.1 then (r3.2, nextAttr)
          else
            let sc := load_value r3.2 v thisAttr
            let r4 := finish_segment sc
            if ¬ r4.1 then (r4.2, nextAttr)
            else scan_loop fuel r4.2 v nextAttr sawLit sawSeq

/-- The initial scanner state (`XMLPartialScanner` constructor before
`next_segment('T')`). -/
def initScanner (fmt : List Nat) : Scanner :=
  { fmt := fmt, fpBase := 0, fpLimit := 0, fpNextBase := 0,
    totalMatch := false, prematch0 := none, prematch1 := 0, fp := 0, fp0 := 0,
    which := SegW.N, attrNum := -1, base := none, limit := 0, scan := 0,
    lastN := 0, out := [], fatal := false }

/-- `va_scan_elem(next_attr, format, ap)`: result, stored conversion
outputs, and the advanced cursor. -/
def va_scan_elem (v : XmlView) (nextAttr : Int) (fmt : List Nat) :
    Bool × List StoreVal × Int :=
  if ¬ (v.kind ≠ LineKind.TEXT) ∧ ¬ (63 ∈ fmt) then (false, [], nextAttr)
  else
    let sc := (next_segment (initScanner fmt) SegW.T).2
    let sc := load_tag sc v
    let r := finish_segment sc
    if ¬ r.1 then (false, r.2.out, nextAttr)
    else
      let lr := scan_loop (fmt.length + 2) r.2 v nextAttr false (nextAttr ≠ 0)
      (lr.1.which == SegW.E, lr.1.out, lr.2)

/-- `scan_elem(format, ...)` on a raw line (cursor starting at 0, as
the two-argument overload does). -/
def scan_elem (lp fmt : List Nat) : Bool × List StoreVal :=
  let r := va_scan_elem (scanLine lp) 0 fmt
  (r.1, r.2.1)

/-- The byte string of the C8 scan pattern `tag? name?='%n%p'`. -/
def C8fmt : List Nat := [116, 97, 103, 63, 32, 110, 97, 109, 101, 63, 61, 39, 37, 110, 37, 112, 39]

end JdkXmlScan

/-! ## Helper lemmas -/

namespace JdkIstream

theorem slice_pad (P C Q : List Nat) :
    slice (P ++ (C ++ Q)) P.length (P.length + C.length) = C := by
  simp [slice, List.drop_left]

theorem set_pad (P C Q : List Nat) (k v : Nat) (hk : k < C.length) :
    (P ++ (C ++ Q)).set (P.length + k) v = P ++ (C.set k v ++ Q) := by
  rw [List.set_append_right _ _ (by omega)]
  congr 1
  rw [List.set_append_left _ _ (by omega)]
  congr 2
  omega

theorem getD_pad (P C Q : List Nat) (k : Nat) (hk : k < C.length) :
    (P ++ (C ++ Q)).getD (P.length + k) 0 = C.getD k 0 := by
  simp only [List.getD_eq_getElem?_getD]
  rw [List.getElem?_append_right (by omega)]
  rw [show P.length + k - P.length = k by omega]
  rw [List.getElem?_append_left (by omega)]

theorem findNL_none (X : List Nat) (hX : 10 ∉ X) : findNL X = none := by
  induction X with
  | nil => rfl
  | cons b bs ih =>
    simp only [List.mem_cons, not_or] at hX
    have hb : b ≠ 10 := fun h => hX.1 h.symm
    simp [findNL, hb, ih hX.2]

theorem findNL_split (X Y : List Nat) (hX : 10 ∉ X) :
    findNL (X ++ 10 :: Y) = some X.length := by
  induction X with
  | nil => simp [findNL]
  | cons b bs ih =>
    simp only [List.mem_cons, not_or] at hX
    have hb : b ≠ 10 := fun h => hX.1 h.symm
    simp [findNL, hb, ih hX.2]

theorem sbc_clear (s : IStream) (cs ce : Nat) (h : ce ≤ cs) :
    set_buffer_content s cs ce = clear_buffer s := by
  simp [set_buffer_content, h]

/-- `set_buffer_content` on a content region with no newline: a partial
line reaching the end of the region, no terminator recorded, nothing
written. -/
theorem sbc_pad_none (s : IStream) (P C Q : List Nat)
    (hC : 10 ∉ C) (hne : C ≠ [])
    (hbuf : s.buffer = P ++ (C ++ Q)) :
    set_buffer_content s P.length (P.length + C.length) =
      { s with beg := P.length, contentEnd := P.length + C.length,
               en := P.length + C.length, lineEnding := 0 } := by
  have hlen : 0 < C.length := List.length_pos.mpr hne
  rw [set_buffer_content, if_neg (by omega)]
  rw [hbuf, slice_pad, findNL_none C hC]

/-- `set_buffer_content` on a content region whose first newline is not
preceded by a carriage return (within the region): that newline is
overwritten with NUL, the line ends there, `line_ending = 1`. -/
theorem sbc_pad_nl (s : IStream) (P X Y Q : List Nat)
    (hX : 10 ∉ X) (hc : X.getLast? ≠ some 13)
    (hbuf : s.buffer = P ++ ((X ++ 10 :: Y) ++ Q)) :
    set_buffer_content s P.length (P.length + (X.length + 1 + Y.length)) =
      { s with buffer := P ++ ((X ++ 0 :: Y) ++ Q), beg := P.length,
               contentEnd := P.length + (X.length + 1 + Y.length),
               en := P.length + X.length, lineEnding := 1,
               lineno := s.lineno + 1 } := by
  have hClen : (X ++ 10 :: Y).length = X.length + 1 + Y.length := by
    simp <;> omega
  rw [set_buffer_content, if_neg (by omega)]
  have hslice : slice s.buffer P.length (P.length + (X.length + 1 + Y.length)) =
      X ++ 10 :: Y := by
    rw [hbuf, ← hClen, slice_pad]
  rw [hslice, findNL_split X Y hX]
  have hcr : ¬ (0 < X.length ∧ s.buffer.getD (P.length + X.length - 1) 0 = 13) := by
    rintro ⟨hpos, hgd⟩
    apply hc
    have hx1 : P.length + X.length - 1 = P.length + (X.length - 1) := by omega
    rw [hx1, hbuf, getD_pad _ _ _ _ (by simp <;> omega)] at hgd
    rw [List.getD_eq_getElem?_getD, List.getElem?_append_left (by omega)] at hgd
    rw [List.getLast?_eq_getElem?]
    rw [List.getElem?_eq_getElem (by omega)] at hgd ⊢
    simp only [Option.getD_some] at hgd
    rw [hgd]
  dsimp only
  rw [if_neg hcr]
  have hset : s.buffer.set (P.length + X.length) 0 = P ++ ((X ++ 0 :: Y) ++ Q) := by
    rw [hbuf, set_pad _ _ _ _ _ (by simp <;> omega)]
    congr 2
    rw [List.set_append_right _ _ (by omega)]
    simp
  rw [hset]

/-- `set_buffer_content` on a content region whose first newline is
directly preceded by a carriage return: both bytes become NUL, the line
ends at the newline position, `line_ending = 2`. -/
theorem sbc_pad_cr (s : IStream) (P T Y Q : List Nat)
    (hT : 10 ∉ T)
    (hbuf : s.buffer = P ++ (((T ++ [13]) ++ 10 :: Y) ++ Q)) :
    set_buffer_content s P.length (P.length + (T.length + 2 + Y.length)) =
      { s with buffer := P ++ (((T ++ [0]) ++ 0 :: Y) ++ Q), beg := P.length,
               contentEnd := P.length + (T.length + 2 + Y.length),
               en := P.length + (T.length + 1), lineEnding := 2,
               lineno := s.lineno + 1 } := by
  have hX : (10 : Nat) ∉ T ++ [13] := by
    simp [hT]
  have hClen : ((T ++ [13]) ++ 10 :: Y).length = T.length + 2 + Y.length := by
    simp <;> omega
  rw [set_buffer_content, if_neg (by omega)]
  have hslice : slice s.buffer P.length (P.length + (T.length + 2 + Y.length)) =
      (T ++ [13]) ++ 10 :: Y := by
    rw [hbuf, ← hClen, slice_pad]
  rw [hslice, findNL_split (T ++ [13]) Y hX]
  have hlen13 : (T ++ [13]).length = T.length + 1 := by simp
  rw [hlen13]
  have hcr : 0 < T.length + 1 ∧ s.buffer.getD (P.length + (T.length + 1) - 1) 0 = 13 := by
    refine ⟨by omega, ?_⟩
    have hx1 : P.length + (T.length + 1) - 1 = P.length + T.length := by omega
    rw [hx1, hbuf, getD_pad _ _ _ _ (by simp <;> omega)]
    rw [List.getD_eq_getElem?_getD, List.getElem?_append_left (by simp)]
    rw [List.getElem?_append_right (by omega)]
    simp
  dsimp only
  rw [if_pos hcr]
  have hset1 : s.buffer.set (P.length + (T.length + 1)) 0 =
      P ++ (((T ++ [13]) ++ 0 :: Y) ++ Q) := by
    rw [hbuf, set_pad _ _ _ _ _ (by simp <;> omega)]
    congr 2
    rw [List.set_append_right _ _ (by simp)]
    simp
  have hx2 : P.length + (T.length + 1) - 1 = P.length + T.length := by omega
  rw [hset1, hx2]
  have hset2 : (P ++ (((T ++ [13]) ++ 0 :: Y) ++ Q)).set (P.length + T.length) 0 =
      P ++ (((T ++ [0]) ++ 0 :: Y) ++ Q) := by
    rw [set_pad _ _ _ _ _ (by simp <;> omega)]
    congr 2
    rw [List.set_append_left _ _ (by simp <;> omega)]
    congr 1
    rw [List.set_append_right _ _ (by omega)]
    simp
  rw [hset2]

end JdkIstream

namespace JdkIstream

/-- C1: for every `inputStream`, a newline byte in the buffered input
terminates the current line — `set_buffer_content` ends the line at the
first newline of the content region, overwrites it with NUL and sets
`line_ending = 1`; when a carriage return directly precedes that
newline, it too is overwritten with NUL and `line_ending` becomes 2;
and a region without a newline (in particular one holding a lone
carriage return) produces no terminator and is left unmodified, the
carriage return passing through as ordinary line data. -/
theorem C1_newline_terminates_line (s : IStream) (P X T Y Q : List Nat) :
    (10 ∉ X → X.getLast? ≠ some 13 →
      s.buffer = P ++ ((X ++ 10 :: Y) ++ Q) →
      (set_buffer_content s P.length (P.length + (X.length + 1 + Y.length))).en
          = P.length + X.length ∧
      (set_buffer_content s P.length (P.length + (X.length + 1 + Y.length))).lineEnding = 1 ∧
      (set_buffer_content s P.length (P.length + (X.length + 1 + Y.length))).buffer
          = P ++ ((X ++ 0 :: Y) ++ Q)) ∧
    (10 ∉ T →
      s.buffer = P ++ (((T ++ [13]) ++ 10 :: Y) ++ Q) →
      (set_buffer_content s P.length (P.length + (T.length + 2 + Y.length))).en
          = P.length + (T.length + 1) ∧
      (set_buffer_content s P.length (P.length + (T.length + 2 + Y.length))).lineEnding = 2 ∧
      (set_buffer_content s P.length (P.length + (T.length + 2 + Y.length))).buffer
          = P ++ (((T ++ [0]) ++ 0 :: Y) ++ Q)) ∧
    (10 ∉ X → X ≠ [] →
      s.buffer = P ++ (X ++ Q) →
      (set_buffer_content s P.length (P.length + X.length)).lineEnding = 0 ∧
      (set_buffer_content s P.length (P.length + X.length)).en = P.length + X.length ∧
      (set_buffer_content s P.length (P.length + X.length)).buffer = s.buffer) := by
  refine ⟨fun hX hc hbuf => ?_, fun hT hbuf => ?_, fun hX hne hbuf => ?_⟩
  · rw [sbc_pad_nl s P X Y Q hX hc hbuf]
    exact ⟨rfl, rfl, rfl⟩
  · rw [sbc_pad_cr s P T Y Q hT hbuf]
    exact ⟨rfl, rfl, rfl⟩
  · rw [sbc_pad_none s P X Q hX hne hbuf]
    exact ⟨rfl, rfl, rfl⟩

/-- Witness for C1: a concrete buffer `"ab\ncd"` splits at the newline
with kind 1; `"ab\r\ncd"` splits with kind 2, both bytes zeroed; and
`"ab\rcd"` has no terminator, the `'\r'` passing through as data. -/
theorem C1_newline_terminates_line_witness :
    ((set_buffer_content
        { emptyStream with buffer := [97, 98, 10, 99, 100] } 0 5).en = 2 ∧
     (set_buffer_content
        { emptyStream with buffer := [97, 98, 10, 99, 100] } 0 5).lineEnding = 1 ∧
     (set_buffer_content
        { emptyStream with buffer := [97, 98, 10, 99, 100] } 0 5).buffer
        = [97, 98, 0, 99, 100]) ∧
    ((set_buffer_content
        { emptyStream with buffer := [97, 98, 13, 10, 99, 100] } 0 6).en = 3 ∧
     (set_buffer_content
        { emptyStream with buffer := [97, 98, 13, 10, 99, 100] } 0 6).lineEnding = 2 ∧
     (set_buffer_content
        { emptyStream with buffer := [97, 98, 13, 10, 99, 100] } 0 6).buffer
        = [97, 98, 0, 0, 99, 100]) ∧
    ((set_buffer_content
        { emptyStream with buffer := [97, 98, 13, 99, 100] } 0 5).lineEnding = 0 ∧
     (set_buffer_content
        { emptyStream with buffer := [97, 98, 13, 99, 100] } 0 5).en = 5 ∧
     (set_buffer_content
        { emptyStream with buffer := [97, 98, 13, 99, 100] } 0 5).buffer
        = [97, 98, 13, 99, 100]) := by
  refine ⟨?_, ?_, ?_⟩
  · exact (C1_newline_terminates_line
      { emptyStream with buffer := [97, 98, 10, 99, 100] }
      [] [97, 98] [] [99, 100] []).1 (by decide) (by decide) (by decide)
  · exact (C1_newline_terminates_line
      { emptyStream with buffer := [97, 98, 13, 10, 99, 100] }
      [] [] [97, 98] [99, 100] []).2.1 (by decide) (by decide)
  · exact (C1_newline_terminates_line
      { emptyStream with buffer := [97, 98, 13, 99, 100] }
      [] [97, 98, 13, 99, 100] [] [] []).2.2 (by decide) (by decide) (by decide)

end JdkIstream

namespace JdkXmlInput

open JdkIstream

/-- C2: the classifier marks a line as markup exactly when its length
is at least 2, its first byte is `<` and its last byte is `>`; a markup
line with leading `</` is TAIL with the tag starting at offset 2; an
other markup line whose byte before the closing `>` is `/` or `?` is
ELEM with the length excluding the trailing marker (and the `>`); any
other markup line is HEAD; and every line failing the structural test
is classified TEXT. -/
theorem C2_line_classification (lp : List Nat) :
    (2 ≤ lp.length ∧ lp.getD 0 0 = 60 ∧ lp.getD (lp.length - 1) 0 = 62 →
      (lp.getD 1 0 = 47 →
        (do_scan lp).kind = LineKind.TAIL ∧ (do_scan lp).tagOffset = 2) ∧
      (lp.getD 1 0 ≠ 47 →
        (lp.getD (lp.length - 2) 0 = 47 ∨ lp.getD (lp.length - 2) 0 = 63) →
        (do_scan lp).kind = LineKind.ELEM ∧
        (do_scan lp).lineLength = lp.length - 2) ∧
      (lp.getD 1 0 ≠ 47 → lp.getD (lp.length - 2) 0 ≠ 47 →
        lp.getD (lp.length - 2) 0 ≠ 63 →
        (do_scan lp).kind = LineKind.HEAD)) ∧
    (¬ (2 ≤ lp.length ∧ lp.getD 0 0 = 60 ∧ lp.getD (lp.length - 1) 0 = 62) →
      (do_scan lp).kind = LineKind.TEXT) := by
  constructor
  · intro hm
    refine ⟨fun h47 => ?_, fun hn47 hsl => ?_, fun hn47 hs47 hs63 => ?_⟩
    · simp only [do_scan]
      rw [if_pos hm, if_pos h47]
      exact ⟨rfl, rfl⟩
    · rcases hsl with h | h
      · simp only [do_scan]
        rw [if_pos hm, if_neg hn47, if_pos h]
        exact ⟨rfl, rfl⟩
      · have hs47b : lp.getD (lp.length - 2) 0 ≠ 47 := by rw [h]; decide
        simp only [do_scan]
        rw [if_pos hm, if_neg hn47, if_neg hs47b, if_pos h]
        exact ⟨rfl, rfl⟩
    · simp only [do_scan]
      rw [if_pos hm, if_neg hn47, if_neg hs47, if_neg hs63]
  · intro hm
    simp only [do_scan]
    rw [if_neg hm]

/-- Witness for C2: concrete lines `"</a>"` (TAIL, tag offset 2),
`"<a/>"` (ELEM, length 2), `"<ab>"` (HEAD), and `"<a> b"` (fails the
structural test, TEXT). -/
theorem C2_line_classification_witness :
    ((do_scan [60, 47, 97, 62]).kind = LineKind.TAIL ∧
     (do_scan [60, 47, 97, 62]).tagOffset = 2) ∧
    ((do_scan [60, 97, 47, 62]).kind = LineKind.ELEM ∧
     (do_scan [60, 97, 47, 62]).lineLength = 2) ∧
    (do_scan [60, 97, 98, 62]).kind = LineKind.HEAD ∧
    (do_scan [60, 97, 62, 32, 98]).kind = LineKind.TEXT := by
  refine ⟨?_, ?_, ?_, ?_⟩
  · exact ((C2_line_classification [60, 47, 97, 62]).1 (by decide)).1 (by decide)
  · exact (((C2_line_classification [60, 97, 47, 62]).1 (by decide)).2.1
      (by decide) (by decide))
  · exact (((C2_line_classification [60, 97, 98, 62]).1 (by decide)).2.2
      (by decide) (by decide) (by decide))
  · exact (C2_line_classification [60, 97, 62, 32, 98]).2 (by decide)

end JdkXmlInput

namespace JdkIstream

set_option maxRecDepth 40000 in
/-- C4 (counterexample): the error state is not sticky through
`set_error(false)` — on a stream with the error bit set, calling
`set_error(false)` makes `error()` return `false` again, contradicting
the claim that `error()` stays true after any call to
`set_error(false)`. -/
theorem C4_set_error_false_clears :
    (set_error (mkStream [97, 10]) true).error = true ∧
    (set_error (set_error (mkStream [97, 10]) true) false).error = false := by
  constructor
  · decide
  · decide

/-- C4 (amended): once `error()` returns true it stays true across the
read-side operations — `next()` (which also reports no more lines),
`done()`, `set_done()`, `current_line()` and friends, `save_line()`,
and further `set_error(true)` — but `set_error(false)` clears it (the
stream then reads as done without error). -/
theorem C4_error_sticky_amended (s : IStream)
    (herr : s.error = true) (hce : s.contentEnd ≤ s.buffer.length) :
    (s.next).2.error = true ∧ (s.next).1 = false ∧
    (set_done s).error = true ∧
    (s.done).1 = true ∧ (s.done).2.error = true ∧
    (set_error s true).error = true ∧
    (save_line s).2.error = true ∧
    (current_line_sized s).2.2.error = true ∧
    (current_line_length s).2.error = true ∧
    (current_line_ending s).2.error = true := by
  simp only [IStream.error, decide_eq_true_eq] at herr
  have hntr : need_to_read s = false := by
    simp only [need_to_read, beq_eq_false_iff_ne, ne_eq]
    omega
  have hpre : preload s = s := by simp [preload, hntr]
  have hdd : definitely_done s = true := by
    simp only [definitely_done, decide_eq_true_eq]
    omega
  refine ⟨?_, ?_, ?_, ?_, ?_, ?_, ?_, ?_, ?_, ?_⟩
  · simp [IStream.next, hpre, hdd, IStream.error]
    omega
  · simp [IStream.next, hpre, hdd]
  · simp [set_done, hdd, IStream.error]
    omega
  · simp [IStream.done, hpre, hdd]
  · simp [IStream.done, hpre, IStream.error]
    omega
  · simp [set_error, IStream.error]
  · simp [save_line, current_line_sized, hpre, hdd, IStream.error]
    omega
  · simp [current_line_sized, hpre, hdd, IStream.error]
    omega
  · simp [current_line_length, hpre, IStream.error]
    omega
  · simp [current_line_ending, hpre, IStream.error]
    omega

set_option maxRecDepth 40000 in
/-- Witness for C4 (amended): applied to a concrete errored stream. -/
theorem C4_error_sticky_amended_witness :
    ((set_error (mkStream [97, 10]) true).next).1 = false ∧
    ((set_error (mkStream [97, 10]) true).next).2.error = true := by
  have h := C4_error_sticky_amended (set_error (mkStream [97, 10]) true)
    (by rfl) (by decide)
  exact ⟨h.2.1, h.1⟩

end JdkIstream

namespace JdkXmlInput

/-- C10: for every index outside `[0, attr_count)`, `attr_name(n)` and
`attr_value(n)` return a null pointer and write nothing through the
caller-supplied length location; no attribute entry is read. -/
theorem C10_attr_indexer_out_of_range (attrs : List AVS) (n : Int)
    (h : n < 0 ∨ (attrs.length : Int) ≤ n) :
    attr_name attrs n = none ∧ attr_value attrs n = none ∧
    attr_indexer attrs n false = (none, none) ∧
    attr_indexer attrs n true = (none, none) := by
  simp [attr_name, attr_value, attr_indexer, h]

/-- Witness for C10: a one-entry index probed at `n = 1` and
`n = -1`. -/
theorem C10_attr_indexer_out_of_range_witness :
    attr_name [{ name := [97], value := [98] }] 1 = none ∧
    attr_value [{ name := [97], value := [98] }] (-1) = none := by
  refine ⟨?_, ?_⟩
  · exact (C10_attr_indexer_out_of_range [{ name := [97], value := [98] }] 1
      (by decide)).1
  · exact (C10_attr_indexer_out_of_range [{ name := [97], value := [98] }] (-1)
      (by decide)).2.1

end JdkXmlInput

namespace JdkXmlInput

open JdkIstream

theorem cstrncmpEq_refl (a : List Nat) (n : Nat) : cstrncmpEq a a n = true := by
  induction a generalizing n with
  | nil => cases n <;> rfl
  | cons x xs ih =>
    cases n with
    | zero => rfl
    | succ m =>
      by_cases hx : x = 0
      · simp [cstrncmpEq, hx]
      · simp [cstrncmpEq, hx, ih]

/-- When the probe is NUL-free and the lengths agree, the `strncmp`
test is plain list equality. -/
theorem cstrncmpEq_eq_iff (a b : List Nat) (hz : 0 ∉ b)
    (hlen : a.length = b.length) :
    cstrncmpEq a b b.length = true ↔ a = b := by
  induction b generalizing a with
  | nil =>
    cases a with
    | nil => simp [cstrncmpEq]
    | cons x xs => simp at hlen
  | cons y ys ih =>
    cases a with
    | nil => simp at hlen
    | cons x xs =>
      simp only [List.mem_cons, not_or] at hz
      have hy : y ≠ 0 := fun h => hz.1 h.symm
      simp only [List.length_cons, Nat.add_right_cancel_iff] at hlen
      by_cases hxy : x = y
      · subst hxy
        simp [cstrncmpEq, hy, ih xs hz.2 hlen]
      · simp [cstrncmpEq, hxy]

/-- A NUL-free byte list is its own C-string view. -/
theorem cstrOf_eq_self (l : List Nat) (hz : 0 ∉ l) : cstrOf l = l := by
  induction l with
  | nil => rfl
  | cons x xs ih =>
    simp only [List.mem_cons, not_or] at hz
    have hx : x ≠ 0 := fun h => hz.1 h.symm
    have hrest := ih hz.2
    simp only [cstrOf, List.takeWhile_cons] at hrest ⊢
    rw [if_pos (by simpa using hx), hrest]

/-- `attr_find` returns the accumulator plus the index of the first
matching entry. -/
theorem attr_find_found (attrs : List AVS) (nm : List Nat) (n i : Nat)
    (hi : i < attrs.length)
    (hm : (attrs.getD i { name := [], value := [] }).name.length = nm.length ∧
          cstrncmpEq (attrs.getD i { name := [], value := [] }).name nm nm.length = true)
    (hnm : ∀ j, j < i →
      ¬ ((attrs.getD j { name := [], value := [] }).name.length = nm.length ∧
         cstrncmpEq (attrs.getD j { name := [], value := [] }).name nm nm.length = true)) :
    attr_find attrs nm n = ((n + i : Nat) : Int) := by
  induction attrs generalizing n i with
  | nil => simp at hi
  | cons a rest ih =>
    cases i with
    | zero =>
      simp only [List.getD_cons_zero] at hm
      simp [attr_find, hm.1, hm.2]
    | succ k =>
      have h0 := hnm 0 (Nat.succ_pos k)
      simp only [List.getD_cons_zero] at h0
      rw [attr_find, if_neg h0]
      have hrec := ih (n + 1) k (by simpa using hi)
        (by simpa using hm)
        (fun j hj => by
          have := hnm (j + 1) (by omega)
          simpa using this)
      rw [hrec]
      push_cast
      ring

/-- Names at increasing positions of a pairwise-distinct attribute list
differ. -/
theorem pairwise_names_ne (attrs : List AVS)
    (hp : attrs.Pairwise (fun a b => a.name ≠ b.name))
    (j i : Nat) (hj : j < i) (hi : i < attrs.length) :
    (attrs.getD j { name := [], value := [] }).name ≠
      (attrs.getD i { name := [], value := [] }).name := by
  have hj' : j < attrs.length := by omega
  rw [List.getD_eq_getElem?_getD, List.getElem?_eq_getElem hj',
      List.getD_eq_getElem?_getD, List.getElem?_eq_getElem hi]
  simpa using (List.pairwise_iff_getElem.mp hp) j i hj' hi hj

/-- C7 (amended): for every scanned markup line whose attribute names
are pairwise distinct (each name nonempty and NUL-free, as
`parse_attrs` produces them), looking up the name of the `i`-th
attribute yields back `i`: `attr_index(attr_name(i)) == i`.  (Without
distinctness the lookup returns the first attribute carrying the
name.) -/
theorem C7_attr_index_of_attr_name (attrs : List AVS) (i : Nat)
    (hi : i < attrs.length)
    (hne : ∀ a ∈ attrs, a.name ≠ [])
    (hz : ∀ a ∈ attrs, 0 ∉ a.name)
    (hp : attrs.Pairwise (fun a b => a.name ≠ b.name)) :
    attr_index_c attrs (attr_name attrs (i : Int)) = (i : Int) := by
  have hmem : attrs.getD i { name := [], value := [] } ∈ attrs := by
    rw [List.getD_eq_getElem?_getD, List.getElem?_eq_getElem hi]
    exact List.getElem_mem _
  have hname : attr_name attrs (i : Int) =
      some (attrs.getD i { name := [], value := [] }).name := by
    simp only [attr_name, attr_indexer]
    rw [if_neg (by
      push_neg
      refine ⟨by exact_mod_cast Nat.zero_le i, by exact_mod_cast hi⟩)]
    simp
  rw [hname]
  have hznm : 0 ∉ (attrs.getD i { name := [], value := [] }).name := hz _ hmem
  have hnenm : (attrs.getD i { name := [], value := [] }).name ≠ [] := hne _ hmem
  simp only [attr_index_c, cstrOf_eq_self _ hznm]
  rw [attr_index_len, if_neg (fun h0 => hnenm (List.length_eq_zero.mp h0))]
  have hfind := attr_find_found attrs
    (attrs.getD i { name := [], value := [] }).name 0 i hi
    ⟨rfl, cstrncmpEq_refl _ _⟩
    (fun j hj => by
      intro hcontra
      have heq : (attrs.getD j { name := [], value := [] }).name =
          (attrs.getD i { name := [], value := [] }).name :=
        (cstrncmpEq_eq_iff _ _ hznm hcontra.1).mp hcontra.2
      exact pairwise_names_ne attrs hp j i hj hi heq)
  rw [hfind]
  simp

set_option maxRecDepth 8000 in
/-- Witness for C7 (amended): the two distinct attributes of
`<t a='1' b='2'>` look attribute 1 up to index 1. -/
theorem C7_attr_index_of_attr_name_witness :
    attr_index_c
      (parse_attrs (do_scan [60,116,32,97,61,39,49,39,32,98,61,39,50,39,62]).line
        (do_scan [60,116,32,97,61,39,49,39,32,98,61,39,50,39,62]).tagEnd
        (do_scan [60,116,32,97,61,39,49,39,32,98,61,39,50,39,62]).lineLength).1
      (attr_name
        (parse_attrs (do_scan [60,116,32,97,61,39,49,39,32,98,61,39,50,39,62]).line
          (do_scan [60,116,32,97,61,39,49,39,32,98,61,39,50,39,62]).tagEnd
          (do_scan [60,116,32,97,61,39,49,39,32,98,61,39,50,39,62]).lineLength).1
        ((1 : Nat) : Int)) = ((1 : Nat) : Int) := by
  exact C7_attr_index_of_attr_name _ 1 (by decide) (by decide) (by decide)
    (by decide)

set_option maxRecDepth 8000 in
/-- C7 (counterexample): on `<t a='1' a='2'>` both attributes are named
`a`; looking up the name of attribute 1 returns 0, not 1, refuting the
claim for lines with repeated attribute names. -/
theorem C7_duplicate_names_break_roundtrip :
    attr_index_c
      (parse_attrs (do_scan [60,116,32,97,61,39,49,39,32,97,61,39,50,39,62]).line
        (do_scan [60,116,32,97,61,39,49,39,32,97,61,39,50,39,62]).tagEnd
        (do_scan [60,116,32,97,61,39,49,39,32,97,61,39,50,39,62]).lineLength).1
      (attr_name
        (parse_attrs (do_scan [60,116,32,97,61,39,49,39,32,97,61,39,50,39,62]).line
          (do_scan [60,116,32,97,61,39,49,39,32,97,61,39,50,39,62]).tagEnd
          (do_scan [60,116,32,97,61,39,49,39,32,97,61,39,50,39,62]).lineLength).1
        (1 : Int)) = (0 : Int) := by
  decide

/-- C6 (amended): the attribute parser rejects an attribute whose name
does not start with an ASCII letter or underscore: at any non-space
scan position failing `is_sane_xml_name_start`, parsing stops at once
with `error_offset` set to that position and the already-parsed
attributes kept.  (It performs no excluded-character check inside input
attribute names; `SANE_XML_NAME_EXCLUSIONS` guards only `scan_elem`
patterns.) -/
theorem C6_reject_bad_name_start (fuel : Nat) (lp : List Nat)
    (scan limit : Nat) (acc : List AVS)
    (hlt : scan < limit)
    (hsp : isspaceB (lp.getD scan 0) = false)
    (hsane : is_sane_xml_name_start (lp.getD scan 0) = false) :
    parse_attrs_loop (fuel + 1) lp scan limit acc = (acc, some scan, lp) := by
  have h1 : ¬ limit ≤ scan := by omega
  simp only [List.getD_eq_getElem?_getD] at hsp hsane
  simp [parse_attrs_loop, h1, hsp, hsane]

/-- Witness for C6 (amended): on the scanned line `<t 1a='v'>` the name
position 3 holds `'1'`, rejected with `error_offset = 3` and no
attributes parsed. -/
theorem C6_reject_bad_name_start_witness :
    parse_attrs_loop 11 [60,116,0,49,97,61,39,118,39,0] 3 10 [] =
      ([], some 3, [60,116,0,49,97,61,39,118,39,0]) := by
  exact C6_reject_bad_name_start 10 [60,116,0,49,97,61,39,118,39,0] 3 10 []
    (by decide) (by decide) (by decide)

set_option maxRecDepth 8000 in
/-- C6 (counterexample): on the ELEM line `<t a?b='v'/>` the attribute
name `a?b` contains the excluded character `?`, yet `parse_attrs`
accepts it — one attribute with that very name and no error offset —
refuting the excluded-character half of the claim. -/
theorem C6_excluded_chars_not_rejected :
    (parse_attrs (do_scan [60,116,32,97,63,98,61,39,118,39,47,62]).line
       (do_scan [60,116,32,97,63,98,61,39,118,39,47,62]).tagEnd
       (do_scan [60,116,32,97,63,98,61,39,118,39,47,62]).lineLength).1
      = [{ name := [97, 63, 98], value := [118] }] ∧
    (parse_attrs (do_scan [60,116,32,97,63,98,61,39,118,39,47,62]).line
       (do_scan [60,116,32,97,63,98,61,39,118,39,47,62]).tagEnd
       (do_scan [60,116,32,97,63,98,61,39,118,39,47,62]).lineLength).2.1
      = none := by
  constructor
  · decide
  · decide

end JdkXmlInput

namespace JdkIstream

theorem listWriteRange_nil (l : List Nat) (off : Nat) :
    listWriteRange l off [] = l := by
  simp [listWriteRange]

theorem count10_zero (X : List Nat) (hX : 10 ∉ X) : count10 X = 0 := by
  simp [count10, List.count_eq_zero]
  intro h
  exact hX h

theorem count10_split (X Y : List Nat) (hX : 10 ∉ X) :
    count10 (X ++ 10 :: Y) = count10 Y + 1 := by
  simp [count10, List.count_append, List.count_cons]
  have : List.count 10 X = 0 := by
    have := count10_zero X hX
    simpa [count10] using this
  omega

theorem first10_split (T : List Nat) (h : 10 ∈ T) :
    ∃ X Y, T = X ++ 10 :: Y ∧ 10 ∉ X := by
  induction T with
  | nil => simp at h
  | cons b bs ih =>
    by_cases hb : b = 10
    · exact ⟨[], bs, by rw [hb]; rfl, by simp⟩
    · have hmem : 10 ∈ bs := by
        rcases List.mem_cons.mp h with h1 | h1
        · exact absurd h1.symm hb
        · exact h1
      obtain ⟨X, Y, hxy, hX⟩ := ih hmem
      exact ⟨b :: X, Y, by rw [hxy]; rfl, by
        simp [hX]
        intro hc
        exact hb hc.symm⟩

end JdkIstream

namespace JdkIstream

/-- On a cleared stream with a null input, `fill_buffer` reads zero
bytes and reports done. -/
theorem fill_buffer_cleared (s : IStream) (hin : s.input = none)
    (hbeg : s.beg = 0) (hen : s.en = 0) (hce : s.contentEnd = 0)
    (hnn : s.buffer ≠ []) :
    (fill_buffer s).1 = false := by
  obtain ⟨inp, buf, ce, beg, en, pos, ln, le⟩ := s
  simp only at hin hbeg hen hce hnn
  subst hin hbeg hen hce
  have hlz : ¬ buf.length = 0 := by
    simpa using fun h => hnn (List.length_eq_zero.mp h)
  simp [fill_buffer, inputFuel, fill_loop, need_to_read, prepare_to_fill_buffer,
        hlz, IStream.error, clear_buffer, read_input, listWriteRange_nil,
        set_done, definitely_done]

/-- `next()` on the last line buffered from a null input returns
`false`. -/
theorem next_final_line (s : IStream) (hin : s.input = none)
    (hce : s.contentEnd = s.en + 1) (hlen : s.en ≤ s.buffer.length)
    (hnn : s.buffer ≠ []) :
    (s.next).1 = false := by
  have hntr : need_to_read s = false := by
    simp only [need_to_read, hce, beq_eq_false_iff_ne, ne_eq]
    omega
  have hpre : preload s = s := by simp [preload, hntr]
  have hdd : definitely_done s = false := by
    simp only [definitely_done, decide_eq_false_iff_not, not_lt]
    omega
  simp only [IStream.next, hpre, hdd, Bool.false_eq_true, if_false]
  rw [sbc_clear _ _ _ (le_of_eq hce)]
  have hcl : need_to_read
      (clear_buffer { s with position := s.position + (s.en + 1 - s.beg) }) = true := by
    simp [need_to_read, clear_buffer]
  rw [if_neg (by rw [hcl]; simp)]
  exact fill_buffer_cleared _ (by simpa [clear_buffer] using hin)
    (by simp [clear_buffer]) (by simp [clear_buffer]) (by simp [clear_buffer])
    (by simpa [clear_buffer] using hnn)

end JdkIstream

namespace JdkIstream

/-- `next()` when more content follows the current line in the buffer:
it returns `true` and installs the next line, the new state again of
the shape the invariant tracks. -/
theorem next_step (s : IStream) (P X Y Q : List Nat)
    (hbuf : s.buffer = P ++ ((X ++ 10 :: Y) ++ Q))
    (hX : 10 ∉ X)
    (hen : s.en + 1 = P.length)
    (hce : s.contentEnd = P.length + (X.length + 1 + Y.length)) :
    (s.next).1 = true ∧
    ∃ Pp : List Nat, (s.next).2.buffer = Pp ++ ((0 :: Y) ++ Q) ∧
      (s.next).2.en = Pp.length ∧ (s.next).2.beg ≤ Pp.length ∧
      (s.next).2.contentEnd = Pp.length + (Y.length + 1) ∧
      (s.next).2.input = s.input ∧ Pp.length = P.length + X.length := by
  have hlen : s.buffer.length = P.length + (X.length + 1 + Y.length + Q.length) := by
    rw [hbuf]; simp; omega
  have hntr : need_to_read s = false := by
    simp only [need_to_read, beq_eq_false_iff_ne, ne_eq]
    omega
  have hpre : preload s = s := by simp [preload, hntr]
  have hdd : definitely_done s = false := by
    simp only [definitely_done, decide_eq_false_iff_not, not_lt]
    omega
  simp only [IStream.next, hpre, hdd, Bool.false_eq_true, if_false]
  set S1 : IStream := { s with position := s.position + (s.en + 1 - s.beg) }
    with hS1
  by_cases hcr : X.getLast? = some 13
  · obtain ⟨X1, rfl⟩ := List.getLast?_eq_some_iff.mp hcr
    have hX1 : 10 ∉ X1 := fun h => hX (List.mem_append_left _ h)
    have hbuf1 : S1.buffer = P ++ (((X1 ++ [13]) ++ 10 :: Y) ++ Q) := by
      rw [hS1]; exact hbuf
    have hl1 : (X1 ++ [13]).length = X1.length + 1 := by simp
    have hce' : s.contentEnd = P.length + (X1.length + 2 + Y.length) := by
      rw [hce, hl1]
    rw [hen, hce', sbc_pad_cr S1 P X1 Y Q hX1 hbuf1]
    rw [if_pos (by
      simp only [need_to_read, beq_iff_eq]
      intro hcon
      omega)]
    refine ⟨rfl, P ++ (X1 ++ [0]), ?_, ?_, ?_, ?_, ?_, ?_⟩
    · simp [List.append_assoc]
    · simp
    · simp only [hS1]
      simp [List.length_append]
      try omega
    · simp [List.length_append]
      try omega
    · simp [hS1]
    · simp [hl1, List.length_append]
      try omega
  · have hbuf1 : S1.buffer = P ++ ((X ++ 10 :: Y) ++ Q) := by
      rw [hS1]; exact hbuf
    rw [hen, hce, sbc_pad_nl S1 P X Y Q hX hcr hbuf1]
    rw [if_pos (by
      simp only [need_to_read, beq_iff_eq]
      intro hcon
      omega)]
    refine ⟨rfl, P ++ X, ?_, ?_, ?_, ?_, ?_, ?_⟩
    · simp [List.append_assoc]
    · simp
    · simp only [hS1]
      simp [List.length_append]
      try omega
    · simp [List.length_append]
      try omega
    · simp [hS1]
    · simp

end JdkIstream

namespace JdkIstream

/-- The invariant of repeatedly calling `next()` on a wholly-buffered
stream (null input): the number of `true` results equals the count of
newline bytes in the content after the current line. -/
theorem countNext_inv (fuel : Nat) :
    ∀ (T P Q : List Nat) (s : IStream),
    s.buffer = P ++ ((0 :: T) ++ Q) →
    s.en = P.length →
    s.contentEnd = P.length + (T.length + 1) →
    s.input = none →
    (T ≠ [] → T.getLast? = some 10) →
    T.length + 1 ≤ fuel →
    countNextTrue fuel s = count10 T := by
  induction fuel with
  | zero =>
    intro T P Q s _ _ _ _ _ hf
    omega
  | succ f ih =>
    intro T P Q s hbuf hen hce hin hlast hf
    have hlen : s.buffer.length = P.length + (T.length + 1 + Q.length) := by
      rw [hbuf]; simp; try omega
    rcases List.eq_nil_or_concat T with hT | ⟨T0, last, hT⟩
    · subst hT
      have hfin : (s.next).1 = false := by
        refine next_final_line s hin ?_ ?_ ?_
        · rw [hce, hen]; simp
        · omega
        · rw [hbuf]; simp
      simp [countNextTrue, hfin, count10]
    · have hTne : T ≠ [] := by rw [hT]; simp
      have h10 : 10 ∈ T := List.mem_of_getLast?_eq_some (hlast hTne)
      obtain ⟨X, Y, hsplit, hX⟩ := first10_split T h10
      have hbuf' : s.buffer = (P ++ [0]) ++ ((X ++ 10 :: Y) ++ Q) := by
        rw [hbuf, hsplit]; simp
      have hen' : s.en + 1 = (P ++ [0]).length := by
        rw [hen]; simp
      have hce' : s.contentEnd = (P ++ [0]).length + (X.length + 1 + Y.length) := by
        rw [hce, hsplit]; simp; try omega
      obtain ⟨htrue, Pp, hb2, he2, hbg2, hc2, hi2, hPp⟩ :=
        next_step s (P ++ [0]) X Y Q hbuf' hX hen' hce'
      have hYlast : Y ≠ [] → Y.getLast? = some 10 := by
        intro hYne
        have hl := hlast hTne
        rw [hsplit, List.getLast?_append] at hl
        rcases Y with _ | ⟨c, ys⟩
        · exact absurd rfl hYne
        · simpa using hl
      have hYfuel : Y.length + 1 ≤ f := by
        have : T.length = X.length + 1 + Y.length := by rw [hsplit]; simp; try omega
        omega
      have hrec := ih Y Pp Q (s.next).2 hb2 he2 hc2 (by rw [hi2, hin]) hYlast hYfuel
      have hcount : count10 T = count10 Y + 1 := by
        rw [hsplit]; exact count10_split X Y hX
      simp only [countNextTrue, htrue, if_pos]
      rw [hrec, hcount]

end JdkIstream

namespace JdkIstream

/-- The string constructor `inputStream(chars, length)` on a
newline-terminated string: the whole string lands at the tail of a
fresh buffer (small, or exactly sized when longer), and
`set_buffer_content` is run over it. -/
theorem mkStream_eq (chars : List Nat) (hne : chars ≠ [])
    (hlast : chars.getLast? = some 10) :
    ∃ L, chars.length < L ∧
      mkStream chars = set_buffer_content
        { emptyStream with buffer := List.replicate (L - chars.length) 0 ++ chars }
        (L - chars.length) L := by
  have hn : 0 < chars.length := List.length_pos.mpr hne
  by_cases hsz : chars.length + 1 ≤ SMALL_SIZE
  · simp only [SMALL_SIZE] at hsz
    refine ⟨240, by omega, ?_⟩
    have h1 : 240 - chars.length + chars.length = 240 := by omega
    have h2 : min (240 - chars.length) 240 = 240 - chars.length := by omega
    norm_num [mkStream, pushback_input, emptyStream, hlast, have_current_line,
      definitely_done, expand_buffer, SMALL_SIZE, hsz, listWriteRange, h1, h2]
  · simp only [SMALL_SIZE] at hsz
    refine ⟨chars.length + 1, by omega, ?_⟩
    have h1 : chars.length + 1 - chars.length + chars.length = chars.length + 1 := by
      omega
    have h2 : min (chars.length + 1 - chars.length) (chars.length + 1)
        = chars.length + 1 - chars.length := by omega
    norm_num [mkStream, pushback_input, emptyStream, hlast, have_current_line,
      definitely_done, expand_buffer, SMALL_SIZE, hsz, listWriteRange, h1, h2]
    rw [show chars.length + 1 - (1 + chars.length) = 0 from by omega]
    simp [Nat.add_comm]

end JdkIstream

namespace JdkIstream

/-- Helper for C5: a freshly constructed stream over a
newline-terminated string performs `count10 chars - 1` successful
`next()` calls: the constructor already makes the first line current,
and each remaining newline yields one successful `next()`. -/
theorem countNext_mkStream (chars : List Nat) (fuel : Nat)
    (hne : chars ≠ []) (hlast : chars.getLast? = some 10)
    (hf : chars.length + 1 ≤ fuel) :
    countNextTrue fuel (mkStream chars) + 1 = count10 chars := by
  obtain ⟨L, hL, heq⟩ := mkStream_eq chars hne hlast
  have h10 : (10 : Nat) ∈ chars := List.mem_of_getLast?_eq_some hlast
  obtain ⟨X, Y, hsplit, hX⟩ := first10_split chars h10
  have hnlen : chars.length = X.length + 1 + Y.length := by
    rw [hsplit]; simp <;> omega
  have hYlast : Y ≠ [] → Y.getLast? = some 10 := by
    intro hYne
    rw [hsplit, List.getLast?_append] at hlast
    rcases Y with _ | ⟨c, ys⟩
    · exact absurd rfl hYne
    · simpa using hlast
  have hYfuel : Y.length + 1 ≤ fuel := by omega
  have hcount : count10 chars = count10 Y + 1 := by
    rw [hsplit]; exact count10_split X Y hX
  set P0 : List Nat := List.replicate (L - chars.length) 0 with hP0
  have hP0len : P0.length = L - chars.length := by simp [hP0]
  have hbuf0 : ({ emptyStream with buffer := P0 ++ chars } : IStream).buffer
      = P0 ++ ((X ++ 10 :: Y) ++ []) := by
    simp [hsplit]
  have hcs : L - chars.length = P0.length := hP0len.symm
  have hce : L = P0.length + (X.length + 1 + Y.length) := by
    rw [hP0len]; omega
  by_cases hc : X.getLast? = some 13
  · -- the newline is preceded by a carriage return
    rcases List.eq_nil_or_concat X with hXnil | ⟨T, last, hXc⟩
    · rw [hXnil] at hc; simp at hc
    rw [List.concat_eq_append] at hXc
    have hlastX : last = 13 := by
      rw [hXc] at hc
      simpa using hc
    have hT10 : (10 : Nat) ∉ T := by
      intro hmem
      exact hX (by rw [hXc]; exact List.mem_append_left _ hmem)
    have hbufT : ({ emptyStream with buffer := P0 ++ chars } : IStream).buffer
        = P0 ++ (((T ++ [13]) ++ 10 :: Y) ++ []) := by
      rw [hbuf0, hXc, hlastX]
    have hXT : X.length = T.length + 1 := by rw [hXc]; simp
    have hce' : L = P0.length + (T.length + 2 + Y.length) := by
      rw [hce, hXT]
    have hsbc := sbc_pad_cr { emptyStream with buffer := P0 ++ chars }
      P0 T Y [] hT10 hbufT
    rw [heq, hcs, hce', hsbc]
    have hfin := countNext_inv fuel Y (P0 ++ (T ++ [0])) []
      { emptyStream with buffer := P0 ++ (((T ++ [0]) ++ 0 :: Y) ++ []),
                         beg := P0.length,
                         contentEnd := P0.length + (T.length + 2 + Y.length),
                         en := P0.length + (T.length + 1), lineEnding := 2,
                         lineno := emptyStream.lineno + 1 }
      (by simp) (by simp) (by simp <;> omega) (by simp [emptyStream]) hYlast hYfuel
    rw [hfin, hcount]
  · -- plain newline terminator
    have hsbc := sbc_pad_nl { emptyStream with buffer := P0 ++ chars }
      P0 X Y [] hX hc hbuf0
    rw [heq, hcs, hce, hsbc]
    have hfin := countNext_inv fuel Y (P0 ++ X) []
      { emptyStream with buffer := P0 ++ ((X ++ 0 :: Y) ++ []),
                         beg := P0.length,
                         contentEnd := P0.length + (X.length + 1 + Y.length),
                         en := P0.length + X.length, lineEnding := 1,
                         lineno := emptyStream.lineno + 1 }
      (by simp) (by simp) (by simp <;> omega) (by simp [emptyStream]) hYlast hYfuel
    rw [hfin, hcount]

end JdkIstream

namespace JdkIstream

/-- C5 (amended): for every nonempty input whose final byte is a
newline, the number of `next()` calls that return `true` over the
stream's lifetime is one less than the number of newline bytes in the
input: the constructor already makes the first line current without a
`next()`, and each further newline yields exactly one successful
`next()`. -/
theorem C5_line_count_amended (chars : List Nat) (fuel : Nat)
    (hne : chars ≠ []) (hlast : chars.getLast? = some 10)
    (hf : chars.length + 1 ≤ fuel) :
    countNextTrue fuel (mkStream chars) + 1 = count10 chars :=
  countNext_mkStream chars fuel hne hlast hf

set_option maxRecDepth 40000 in
/-- Witness for C5: on the two-byte input `"a\n"` (with three units of
fuel, enough for its whole lifetime) the successful-`next()` count plus
one equals the newline count. -/
theorem C5_line_count_amended_witness :
    ([97, 10] : List Nat) ≠ [] ∧ ([97, 10] : List Nat).getLast? = some 10 ∧
    ([97, 10] : List Nat).length + 1 ≤ 3 ∧
    countNextTrue 3 (mkStream [97, 10]) + 1 = count10 [97, 10] :=
  ⟨by decide, by decide, by decide,
   C5_line_count_amended [97, 10] 3 (by decide) (by decide) (by decide)⟩

set_option maxRecDepth 40000 in
/-- Counterexample to C5 as stated: the input `"a\n"` contains one
newline byte, yet no `next()` call ever returns `true` (the sole line
is made current by the constructor itself), so the successful count is
0, not 1. -/
theorem C5_line_count_counterexample :
    countNextTrue 4 (mkStream [97, 10]) = 0 ∧ count10 [97, 10] = 1 :=
  ⟨by rfl, by rfl⟩

end JdkIstream

namespace JdkXmlScan

set_option maxRecDepth 40000 in
/-- C9: code bug — on the element line `<x a='3.5'/>` with format
`x a='%f'`, the scan matches and the stored float value is 3, the
truncation of the parsed value, although `strtod` on the attribute
value `3.5` yields 7/2: `match_strtod` binds the `double` result of
`strtod` to a `long long` local, discarding the fractional part before
storing into the float/double destination. -/
theorem C9_strtod_truncation_bug :
    scan_elem [60, 120, 32, 97, 61, 39, 51, 46, 53, 39, 47, 62]
        [120, 32, 97, 61, 39, 37, 102, 39]
      = (true, [StoreVal.fv (mkRat 3 1)]) ∧
    strtodParse [51, 46, 53] = some (mkRat 7 2, 3) ∧
    mkRat 3 1 ≠ mkRat 7 2 := by
  refine ⟨by decide, by decide, by decide⟩

end JdkXmlScan


namespace JdkXmlInput

open JdkIstream

/-- `attr_find` never answers below its running index (or it answers
`-1`). -/
theorem attr_find_lb (attrs : List AVS) (nm : List Nat) :
    ∀ n : Nat, attr_find attrs nm n = -1 ∨ (n : Int) ≤ attr_find attrs nm n := by
  induction attrs with
  | nil => intro n; exact Or.inl rfl
  | cons a rest ih =>
    intro n
    by_cases hc : a.name.length = nm.length ∧ cstrncmpEq a.name nm nm.length = true
    · right
      rw [attr_find, if_pos hc]
    · rw [attr_find, if_neg hc]
      rcases ih (n + 1) with h | h
      · exact Or.inl h
      · right
        have : ((n : Int) + 1) ≤ attr_find rest nm (n + 1) := by exact_mod_cast h
        omega

/-- Inversion of a non-negative `attr_find` answer: the index is in
range, its entry satisfies the `strncmp` test, and it is the first to
do so. -/
theorem attr_find_inv (attrs : List AVS) (nm : List Nat) :
    ∀ (n i : Nat), attr_find attrs nm n = ((n + i : Nat) : Int) →
      i < attrs.length ∧
      (attrs.getD i { name := [], value := [] }).name.length = nm.length ∧
      cstrncmpEq (attrs.getD i { name := [], value := [] }).name nm nm.length = true := by
  induction attrs with
  | nil =>
    intro n i h
    simp only [attr_find] at h
    omega
  | cons a rest ih =>
    intro n i h
    by_cases hc : a.name.length = nm.length ∧ cstrncmpEq a.name nm nm.length = true
    · rw [attr_find, if_pos hc] at h
      have hi : i = 0 := by omega
      subst hi
      exact ⟨by simp, by simpa using hc.1, by simpa using hc.2⟩
    · rw [attr_find, if_neg hc] at h
      cases i with
      | zero =>
        rcases attr_find_lb rest nm (n + 1) with hlb | hlb
        · rw [hlb] at h; omega
        · rw [h] at hlb; push_cast at hlb; omega
      | succ k =>
        have hrec := ih (n + 1) k (by rw [h]; congr 1; omega)
        exact ⟨by simpa using hrec.1, by simpa using hrec.2.1, by simpa using hrec.2.2⟩

end JdkXmlInput

namespace JdkXmlScan

set_option maxHeartbeats 1600000 in
/-- After the value segment, the next `A` segment hits the end of the
format and moves the scanner to the `E` (success) state. -/
theorem c8_nsE (b : Option (List Nat)) (lim scn : Nat) (o : List StoreVal) (a : Int) :
    next_segment { fmt := [116, 97, 103, 63, 32, 110, 97, 109, 101, 63, 61, 39, 37, 110, 37, 112, 39], fpBase := 12, fpLimit := 16, fpNextBase := 17, totalMatch := true, prematch0 := none, prematch1 := 0, fp := 16, fp0 := 14, which := SegW.V, attrNum := a, base := b, limit := lim, scan := scn, lastN := 0, out := o, fatal := false } SegW.A
    = (false, { fmt := [116, 97, 103, 63, 32, 110, 97, 109, 101, 63, 61, 39, 37, 110, 37, 112, 39], fpBase := 17, fpLimit := 17, fpNextBase := 17, totalMatch := true, prematch0 := none, prematch1 := 0, fp := 0, fp0 := 0, which := SegW.E, attrNum := a, base := b, limit := lim, scan := scn, lastN := 0, out := o, fatal := false }) := by
  simp [next_segment]

set_option maxRecDepth 40000 in
set_option maxHeartbeats 4000000 in
/-- Generalized V-segment match: `%n` stores the 32-bit view of the
current attribute number, whatever it is. -/
theorem c8_matchV_gen (a : Int) (bl : List Nat) (h0 : (0:Nat) ∉ bl) :
    finish_segment { fmt := [116, 97, 103, 63, 32, 110, 97, 109, 101, 63, 61, 39, 37, 110, 37, 112, 39], fpBase := 12, fpLimit := 16, fpNextBase := 17, totalMatch := true, prematch0 := none, prematch1 := 0, fp := 0, fp0 := 0, which := SegW.V, attrNum := a, base := some bl, limit := bl.length, scan := 0, lastN := 0, out := [], fatal := false }
    = (true, { fmt := [116, 97, 103, 63, 32, 110, 97, 109, 101, 63, 61, 39, 37, 110, 37, 112, 39], fpBase := 12, fpLimit := 16, fpNextBase := 17, totalMatch := true, prematch0 := none, prematch1 := 0, fp := 16, fp0 := 14, which := SegW.V, attrNum := a, base := some bl, limit := bl.length, scan := bl.length, lastN := 0, out := [StoreVal.iv (wrapCast 32 a), StoreVal.pv (some bl)], fatal := false }) := by
  have hco : JdkIstream.cstrOf bl = bl := JdkXmlInput.cstrOf_eq_self bl h0
  simp [finish_segment, do_match, match_loop, match_dispatch, scanfOptions,
    consume_format, JdkIstream.slice, run_act, match_position, match_strptr,
    match_strptr_core, prematch_char, skip_conv, store_iv, store_pv,
    must_be_simple, hco, looking_at_escape, JdkXmlInput.find_escape,
    skip_plain_chars, skip_plain_loop, match_literal, bad_scanf_syntax]

set_option maxRecDepth 40000 in
set_option maxHeartbeats 1600000 in
/-- The A-segment literal match of `name` succeeds for any attribute
number. -/
theorem c8_matchA (a : Int) :
    finish_segment { fmt := [116, 97, 103, 63, 32, 110, 97, 109, 101, 63, 61, 39, 37, 110, 37, 112, 39], fpBase := 5, fpLimit := 9, fpNextBase := 12, totalMatch := true, prematch0 := none, prematch1 := 0, fp := 0, fp0 := 0, which := SegW.A, attrNum := a, base := some [110, 97, 109, 101], limit := 4, scan := 0, lastN := 0, out := [], fatal := false }
    = (true, { fmt := [116, 97, 103, 63, 32, 110, 97, 109, 101, 63, 61, 39, 37, 110, 37, 112, 39], fpBase := 5, fpLimit := 9, fpNextBase := 12, totalMatch := true, prematch0 := none, prematch1 := 0, fp := 9, fp0 := 5, which := SegW.A, attrNum := a, base := some [110, 97, 109, 101], limit := 4, scan := 4, lastN := 0, out := [], fatal := false }) := by
  simp [finish_segment, do_match, match_loop, match_dispatch, scanfOptions,
    consume_format, JdkIstream.slice, run_act, match_position, match_strptr,
    match_strptr_core, prematch_char, skip_conv, store_iv, store_pv,
    must_be_simple, looking_at_escape, JdkXmlInput.find_escape,
    skip_plain_chars, skip_plain_loop, match_literal, bad_scanf_syntax,
    JdkXmlInput.is_sane_xml_name_start]

set_option maxHeartbeats 1600000 in
/-- Advancing from the matched A segment to the V segment, for any
attribute number. -/
theorem c8_nsV (a : Int) :
    next_segment { fmt := [116, 97, 103, 63, 32, 110, 97, 109, 101, 63, 61, 39, 37, 110, 37, 112, 39], fpBase := 5, fpLimit := 9, fpNextBase := 12, totalMatch := true, prematch0 := none, prematch1 := 0, fp := 9, fp0 := 5, which := SegW.A, attrNum := a, base := some [110, 97, 109, 101], limit := 4, scan := 4, lastN := 0, out := [], fatal := false } SegW.V
    = (true, { fmt := [116, 97, 103, 63, 32, 110, 97, 109, 101, 63, 61, 39, 37, 110, 37, 112, 39], fpBase := 12, fpLimit := 16, fpNextBase := 17, totalMatch := true, prematch0 := none, prematch1 := 0, fp := 0, fp0 := 0, which := SegW.V, attrNum := a, base := some [110, 97, 109, 101], limit := 4, scan := 4, lastN := 0, out := [], fatal := false }) := by
  simp [next_segment, find_char, JdkIstream.cstrFindChar]


set_option maxRecDepth 40000 in
set_option maxHeartbeats 4000000 in
/-- On a markup line with tag `tag` and no attribute named `name`, the
C8 pattern stores `-1` and a null pointer and succeeds. -/
theorem c8_absent (v : XmlView) (htag : v.tag = some [116,97,103])
    (hidx : JdkXmlInput.attr_index_len v.attrs [110,97,109,101] = -1) :
    va_scan_elem v 0 C8fmt = (true, [StoreVal.iv (-1), StoreVal.pv none], 0) := by
  simp only [va_scan_elem]
  rw [if_neg (by rintro ⟨h1, h2⟩; exact h2 (by decide))]
  have h1 : next_segment (initScanner C8fmt) SegW.T = (true, { fmt := [116, 97, 103, 63, 32, 110, 97, 109, 101, 63, 61, 39, 37, 110, 37, 112, 39], fpBase := 0, fpLimit := 3, fpNextBase := 5, totalMatch := true, prematch0 := none, prematch1 := 0, fp := 0, fp0 := 0, which := SegW.T, attrNum := -1, base := none, limit := 0, scan := 0, lastN := 0, out := [], fatal := false }) := by decide
  rw [h1]
  have h2 : load_tag (true, ({ fmt := [116, 97, 103, 63, 32, 110, 97, 109, 101, 63, 61, 39, 37, 110, 37, 112, 39], fpBase := 0, fpLimit := 3, fpNextBase := 5, totalMatch := true, prematch0 := none, prematch1 := 0, fp := 0, fp0 := 0, which := SegW.T, attrNum := -1, base := none, limit := 0, scan := 0, lastN := 0, out := [], fatal := false } : Scanner)).2 v = { fmt := [116, 97, 103, 63, 32, 110, 97, 109, 101, 63, 61, 39, 37, 110, 37, 112, 39], fpBase := 0, fpLimit := 3, fpNextBase := 5, totalMatch := true, prematch0 := none, prematch1 := 0, fp := 0, fp0 := 0, which := SegW.T, attrNum := -1, base := some [116, 97, 103], limit := 3, scan := 0, lastN := 0, out := [], fatal := false } := by
    simp only [load_tag, htag]; decide
  rw [h2]
  have h3 : finish_segment { fmt := [116, 97, 103, 63, 32, 110, 97, 109, 101, 63, 61, 39, 37, 110, 37, 112, 39], fpBase := 0, fpLimit := 3, fpNextBase := 5, totalMatch := true, prematch0 := none, prematch1 := 0, fp := 0, fp0 := 0, which := SegW.T, attrNum := -1, base := some [116, 97, 103], limit := 3, scan := 0, lastN := 0, out := [], fatal := false } = (true, { fmt := [116, 97, 103, 63, 32, 110, 97, 109, 101, 63, 61, 39, 37, 110, 37, 112, 39], fpBase := 0, fpLimit := 3, fpNextBase := 5, totalMatch := true, prematch0 := none, prematch1 := 0, fp := 3, fp0 := 0, which := SegW.T, attrNum := -1, base := some [116, 97, 103], limit := 3, scan := 3, lastN := 0, out := [], fatal := false }) := by decide
  rw [h3]
  dsimp only
  have hb : (decide ((0:Int) ≠ 0)) = false := by decide
  simp only [hb]
  have hlen : C8fmt.length + 2 = Nat.succ 18 := by decide
  simp only [hlen]
  rw [scan_loop.eq_2]
  have h4 : next_segment { fmt := [116, 97, 103, 63, 32, 110, 97, 109, 101, 63, 61, 39, 37, 110, 37, 112, 39], fpBase := 0, fpLimit := 3, fpNextBase := 5, totalMatch := true, prematch0 := none, prematch1 := 0, fp := 3, fp0 := 0, which := SegW.T, attrNum := -1, base := some [116, 97, 103], limit := 3, scan := 3, lastN := 0, out := [], fatal := false } SegW.A = (true, { fmt := [116, 97, 103, 63, 32, 110, 97, 109, 101, 63, 61, 39, 37, 110, 37, 112, 39], fpBase := 5, fpLimit := 9, fpNextBase := 12, totalMatch := true, prematch0 := none, prematch1 := 0, fp := 0, fp0 := 0, which := SegW.A, attrNum := -1, base := some [116, 97, 103], limit := 3, scan := 3, lastN := 0, out := [], fatal := false }) := by decide
  rw [h4]
  dsimp only
  have h5 : literal_name { fmt := [116, 97, 103, 63, 32, 110, 97, 109, 101, 63, 61, 39, 37, 110, 37, 112, 39], fpBase := 5, fpLimit := 9, fpNextBase := 12, totalMatch := true, prematch0 := none, prematch1 := 0, fp := 0, fp0 := 0, which := SegW.A, attrNum := -1, base := some [116, 97, 103], limit := 3, scan := 3, lastN := 0, out := [], fatal := false } = some [110, 97, 109, 101] := by decide
  rw [h5]
  dsimp only
  rw [hidx]
  have h6 : load_attr { fmt := [116, 97, 103, 63, 32, 110, 97, 109, 101, 63, 61, 39, 37, 110, 37, 112, 39], fpBase := 5, fpLimit := 9, fpNextBase := 12, totalMatch := true, prematch0 := none, prematch1 := 0, fp := 0, fp0 := 0, which := SegW.A, attrNum := -1, base := some [116, 97, 103], limit := 3, scan := 3, lastN := 0, out := [], fatal := false } v (-1) = { fmt := [116, 97, 103, 63, 32, 110, 97, 109, 101, 63, 61, 39, 37, 110, 37, 112, 39], fpBase := 5, fpLimit := 9, fpNextBase := 12, totalMatch := true, prematch0 := none, prematch1 := 0, fp := 0, fp0 := 0, which := SegW.A, attrNum := -1, base := none, limit := 0, scan := 0, lastN := 0, out := [], fatal := false } := by
    simp only [load_attr]; norm_num [load_common]
  rw [h6]
  have h7 : finish_segment { fmt := [116, 97, 103, 63, 32, 110, 97, 109, 101, 63, 61, 39, 37, 110, 37, 112, 39], fpBase := 5, fpLimit := 9, fpNextBase := 12, totalMatch := true, prematch0 := none, prematch1 := 0, fp := 0, fp0 := 0, which := SegW.A, attrNum := -1, base := none, limit := 0, scan := 0, lastN := 0, out := [], fatal := false } = (true, { fmt := [116, 97, 103, 63, 32, 110, 97, 109, 101, 63, 61, 39, 37, 110, 37, 112, 39], fpBase := 5, fpLimit := 9, fpNextBase := 12, totalMatch := true, prematch0 := none, prematch1 := 0, fp := 9, fp0 := 5, which := SegW.A, attrNum := -1, base := none, limit := 0, scan := 1, lastN := 0, out := [], fatal := false }) := by decide
  rw [h7]
  have h8 : next_segment { fmt := [116, 97, 103, 63, 32, 110, 97, 109, 101, 63, 61, 39, 37, 110, 37, 112, 39], fpBase := 5, fpLimit := 9, fpNextBase := 12, totalMatch := true, prematch0 := none, prematch1 := 0, fp := 9, fp0 := 5, which := SegW.A, attrNum := -1, base := none, limit := 0, scan := 1, lastN := 0, out := [], fatal := false } SegW.V = (true, { fmt := [116, 97, 103, 63, 32, 110, 97, 109, 101, 63, 61, 39, 37, 110, 37, 112, 39], fpBase := 12, fpLimit := 16, fpNextBase := 17, totalMatch := true, prematch0 := none, prematch1 := 0, fp := 0, fp0 := 0, which := SegW.V, attrNum := -1, base := none, limit := 0, scan := 1, lastN := 0, out := [], fatal := false }) := by decide
  rw [h8]
  dsimp only
  have h9 : load_value { fmt := [116, 97, 103, 63, 32, 110, 97, 109, 101, 63, 61, 39, 37, 110, 37, 112, 39], fpBase := 12, fpLimit := 16, fpNextBase := 17, totalMatch := true, prematch0 := none, prematch1 := 0, fp := 0, fp0 := 0, which := SegW.V, attrNum := -1, base := none, limit := 0, scan := 1, lastN := 0, out := [], fatal := false } v (-1) = { fmt := [116, 97, 103, 63, 32, 110, 97, 109, 101, 63, 61, 39, 37, 110, 37, 112, 39], fpBase := 12, fpLimit := 16, fpNextBase := 17, totalMatch := true, prematch0 := none, prematch1 := 0, fp := 0, fp0 := 0, which := SegW.V, attrNum := -1, base := none, limit := 0, scan := 0, lastN := 0, out := [], fatal := false } := by
    simp only [load_value]; norm_num [load_common]
  rw [h9]
  have h10 : finish_segment { fmt := [116, 97, 103, 63, 32, 110, 97, 109, 101, 63, 61, 39, 37, 110, 37, 112, 39], fpBase := 12, fpLimit := 16, fpNextBase := 17, totalMatch := true, prematch0 := none, prematch1 := 0, fp := 0, fp0 := 0, which := SegW.V, attrNum := -1, base := none, limit := 0, scan := 0, lastN := 0, out := [], fatal := false } = (true, { fmt := [116, 97, 103, 63, 32, 110, 97, 109, 101, 63, 61, 39, 37, 110, 37, 112, 39], fpBase := 12, fpLimit := 16, fpNextBase := 17, totalMatch := true, prematch0 := none, prematch1 := 0, fp := 16, fp0 := 14, which := SegW.V, attrNum := -1, base := none, limit := 0, scan := 0, lastN := 0, out := [StoreVal.iv (-1), StoreVal.pv none], fatal := false }) := by decide
  rw [h10]
  have hd1 : decide (true = true) = true := rfl
  have hd2 : decide (false = true) = false := rfl
  simp only [hd1, hd2]
  have h11 : next_segment { fmt := [116, 97, 103, 63, 32, 110, 97, 109, 101, 63, 61, 39, 37, 110, 37, 112, 39], fpBase := 12, fpLimit := 16, fpNextBase := 17, totalMatch := true, prematch0 := none, prematch1 := 0, fp := 16, fp0 := 14, which := SegW.V, attrNum := -1, base := none, limit := 0, scan := 0, lastN := 0, out := [StoreVal.iv (-1), StoreVal.pv none], fatal := false } SegW.A = (false, { fmt := [116, 97, 103, 63, 32, 110, 97, 109, 101, 63, 61, 39, 37, 110, 37, 112, 39], fpBase := 17, fpLimit := 17, fpNextBase := 17, totalMatch := true, prematch0 := none, prematch1 := 0, fp := 0, fp0 := 0, which := SegW.E, attrNum := -1, base := none, limit := 0, scan := 0, lastN := 0, out := [StoreVal.iv (-1), StoreVal.pv none], fatal := false }) := by decide
  rw [show (18:Nat) = Nat.succ 17 from rfl, scan_loop.eq_2, h11]
  dsimp only
  simp only [Bool.false_eq_true, not_false_eq_true, if_true]
  decide

set_option maxRecDepth 40000 in
set_option maxHeartbeats 4000000 in
/-- On a markup line with tag `tag` on which the attribute `name` is
found at index `i`, the C8 pattern stores the attribute number (as the
32-bit int conversion writes it) and the value pointer and succeeds. -/
theorem c8_present_gen (v : XmlView) (htag : v.tag = some [116,97,103])
    (i : Nat)
    (hidx : JdkXmlInput.attr_index_len v.attrs [110,97,109,101] = (i : Int)) :
    va_scan_elem v 0 C8fmt
      = (true, [StoreVal.iv (wrapCast 32 (i : Int)),
                StoreVal.pv (some (JdkIstream.cstrOf ((JdkXmlInput.attr_value v.attrs (i : Int)).getD [])))], 0) := by
  have hfind : JdkXmlInput.attr_find v.attrs [110,97,109,101] 0 = ((0 + i : Nat) : Int) := by
    simpa [JdkXmlInput.attr_index_len] using hidx
  obtain ⟨hilt, hnlen, hcmp⟩ := JdkXmlInput.attr_find_inv v.attrs [110,97,109,101] 0 i hfind
  have hname : (v.attrs.getD i { name := [], value := [] }).name = [110, 97, 109, 101] := by
    have h4 : ([110, 97, 109, 101] : List Nat).length = 4 := rfl
    exact (JdkXmlInput.cstrncmpEq_eq_iff _ _ (by decide) hnlen).mp hcmp
  have hi0 : ¬((i : Int) < 0) := by omega
  have hile : ¬((v.attrs.length : Int) ≤ (i : Int)) := by omega
  have hname2 : (v.attrs[i]?.getD { name := [], value := [] }).name = [110, 97, 109, 101] := by
    simpa [List.getD_eq_getElem?_getD] using hname
  have hbase : JdkIstream.cstrOf ((JdkXmlInput.attr_name v.attrs (i : Int)).getD [])
      = [110, 97, 109, 101] := by
    simp [JdkXmlInput.attr_name, JdkXmlInput.attr_indexer, hi0, hile, hname2,
      JdkIstream.cstrOf]
  simp only [va_scan_elem]
  rw [if_neg (by rintro ⟨h1, h2⟩; exact h2 (by decide))]
  have h1 : next_segment (initScanner C8fmt) SegW.T = (true, { fmt := [116, 97, 103, 63, 32, 110, 97, 109, 101, 63, 61, 39, 37, 110, 37, 112, 39], fpBase := 0, fpLimit := 3, fpNextBase := 5, totalMatch := true, prematch0 := none, prematch1 := 0, fp := 0, fp0 := 0, which := SegW.T, attrNum := -1, base := none, limit := 0, scan := 0, lastN := 0, out := [], fatal := false }) := by decide
  rw [h1]
  have h2 : load_tag (true, ({ fmt := [116, 97, 103, 63, 32, 110, 97, 109, 101, 63, 61, 39, 37, 110, 37, 112, 39], fpBase := 0, fpLimit := 3, fpNextBase := 5, totalMatch := true, prematch0 := none, prematch1 := 0, fp := 0, fp0 := 0, which := SegW.T, attrNum := -1, base := none, limit := 0, scan := 0, lastN := 0, out := [], fatal := false } : Scanner)).2 v = { fmt := [116, 97, 103, 63, 32, 110, 97, 109, 101, 63, 61, 39, 37, 110, 37, 112, 39], fpBase := 0, fpLimit := 3, fpNextBase := 5, totalMatch := true, prematch0 := none, prematch1 := 0, fp := 0, fp0 := 0, which := SegW.T, attrNum := -1, base := some [116, 97, 103], limit := 3, scan := 0, lastN := 0, out := [], fatal := false } := by
    simp only [load_tag, htag]; decide
  rw [h2]
  have h3 : finish_segment { fmt := [116, 97, 103, 63, 32, 110, 97, 109, 101, 63, 61, 39, 37, 110, 37, 112, 39], fpBase := 0, fpLimit := 3, fpNextBase := 5, totalMatch := true, prematch0 := none, prematch1 := 0, fp := 0, fp0 := 0, which := SegW.T, attrNum := -1, base := some [116, 97, 103], limit := 3, scan := 0, lastN := 0, out := [], fatal := false } = (true, { fmt := [116, 97, 103, 63, 32, 110, 97, 109, 101, 63, 61, 39, 37, 110, 37, 112, 39], fpBase := 0, fpLimit := 3, fpNextBase := 5, totalMatch := true, prematch0 := none, prematch1 := 0, fp := 3, fp0 := 0, which := SegW.T, attrNum := -1, base := some [116, 97, 103], limit := 3, scan := 3, lastN := 0, out := [], fatal := false }) := by decide
  rw [h3]
  dsimp only
  have hb : (decide ((0:Int) ≠ 0)) = false := by decide
  simp only [hb]
  have hlen : C8fmt.length + 2 = Nat.succ 18 := by decide
  simp only [hlen]
  rw [scan_loop.eq_2]
  have h4 : next_segment { fmt := [116, 97, 103, 63, 32, 110, 97, 109, 101, 63, 61, 39, 37, 110, 37, 112, 39], fpBase := 0, fpLimit := 3, fpNextBase := 5, totalMatch := true, prematch0 := none, prematch1 := 0, fp := 3, fp0 := 0, which := SegW.T, attrNum := -1, base := some [116, 97, 103], limit := 3, scan := 3, lastN := 0, out := [], fatal := false } SegW.A = (true, { fmt := [116, 97, 103, 63, 32, 110, 97, 109, 101, 63, 61, 39, 37, 110, 37, 112, 39], fpBase := 5, fpLimit := 9, fpNextBase := 12, totalMatch := true, prematch0 := none, prematch1 := 0, fp := 0, fp0 := 0, which := SegW.A, attrNum := -1, base := some [116, 97, 103], limit := 3, scan := 3, lastN := 0, out := [], fatal := false }) := by decide
  rw [h4]
  dsimp only
  have h5 : literal_name { fmt := [116, 97, 103, 63, 32, 110, 97, 109, 101, 63, 61, 39, 37, 110, 37, 112, 39], fpBase := 5, fpLimit := 9, fpNextBase := 12, totalMatch := true, prematch0 := none, prematch1 := 0, fp := 0, fp0 := 0, which := SegW.A, attrNum := -1, base := some [116, 97, 103], limit := 3, scan := 3, lastN := 0, out := [], fatal := false } = some [110, 97, 109, 101] := by decide
  rw [h5]
  dsimp only
  rw [hidx]
  have h6p : load_attr { fmt := [116, 97, 103, 63, 32, 110, 97, 109, 101, 63, 61, 39, 37, 110, 37, 112, 39], fpBase := 5, fpLimit := 9, fpNextBase := 12, totalMatch := true, prematch0 := none, prematch1 := 0, fp := 0, fp0 := 0, which := SegW.A, attrNum := -1, base := some [116, 97, 103], limit := 3, scan := 3, lastN := 0, out := [], fatal := false } v (i : Int) = { fmt := [116, 97, 103, 63, 32, 110, 97, 109, 101, 63, 61, 39, 37, 110, 37, 112, 39], fpBase := 5, fpLimit := 9, fpNextBase := 12, totalMatch := true, prematch0 := none, prematch1 := 0, fp := 0, fp0 := 0, which := SegW.A, attrNum := (i : Int), base := some [110, 97, 109, 101], limit := 4, scan := 0, lastN := 0, out := [], fatal := false } := by
    simp [load_attr, load_common, hi0, hbase]
  rw [h6p]
  rw [c8_matchA (i : Int)]
  rw [c8_nsV (i : Int)]
  dsimp only
  have h9p : load_value { fmt := [116, 97, 103, 63, 32, 110, 97, 109, 101, 63, 61, 39, 37, 110, 37, 112, 39], fpBase := 12, fpLimit := 16, fpNextBase := 17, totalMatch := true, prematch0 := none, prematch1 := 0, fp := 0, fp0 := 0, which := SegW.V, attrNum := (i : Int), base := some [110, 97, 109, 101], limit := 4, scan := 4, lastN := 0, out := [], fatal := false } v (i : Int) = { fmt := [116, 97, 103, 63, 32, 110, 97, 109, 101, 63, 61, 39, 37, 110, 37, 112, 39], fpBase := 12, fpLimit := 16, fpNextBase := 17, totalMatch := true, prematch0 := none, prematch1 := 0, fp := 0, fp0 := 0, which := SegW.V, attrNum := (i : Int), base := some (JdkIstream.cstrOf ((JdkXmlInput.attr_value v.attrs (i : Int)).getD [])), limit := (JdkIstream.cstrOf ((JdkXmlInput.attr_value v.attrs (i : Int)).getD [])).length, scan := 0, lastN := 0, out := [], fatal := false } := by
    simp [load_value, load_common, hi0]
  rw [h9p]
  have h0bl : (0:Nat) ∉ (JdkIstream.cstrOf ((JdkXmlInput.attr_value v.attrs (i : Int)).getD [])) := by
    intro hmem
    have := List.mem_takeWhile_imp hmem
    simp at this
  rw [c8_matchV_gen (i : Int) (JdkIstream.cstrOf ((JdkXmlInput.attr_value v.attrs (i : Int)).getD [])) h0bl]
  have hd1 : decide (true = true) = true := rfl
  have hd2 : decide (false = true) = false := rfl
  simp only [hd1, hd2]
  rw [show (18:Nat) = Nat.succ 17 from rfl, scan_loop.eq_2]
  rw [c8_nsE]
  dsimp only
  simp only [Bool.false_eq_true, not_false_eq_true, if_true, not_true, if_false,
    lt_self_iff_false, false_and, and_false, eq_self_iff_true, true_and]
  simp


set_option maxRecDepth 40000 in
set_option maxHeartbeats 1600000 in
/-- A line with a null tag (in particular every TEXT line) fails the
literal tag segment of the C8 pattern even though the tag is total. -/
theorem c8_text (w : XmlView) (hwtag : w.tag = none) :
    va_scan_elem w 0 C8fmt = (false, [], 0) := by
  simp only [va_scan_elem]
  rw [if_neg (by rintro ⟨h1, h2⟩; exact h2 (by decide))]
  have h1 : next_segment (initScanner C8fmt) SegW.T = (true, { fmt := [116, 97, 103, 63, 32, 110, 97, 109, 101, 63, 61, 39, 37, 110, 37, 112, 39], fpBase := 0, fpLimit := 3, fpNextBase := 5, totalMatch := true, prematch0 := none, prematch1 := 0, fp := 0, fp0 := 0, which := SegW.T, attrNum := -1, base := none, limit := 0, scan := 0, lastN := 0, out := [], fatal := false }) := by decide
  rw [h1]
  have h2t : load_tag (true, ({ fmt := [116, 97, 103, 63, 32, 110, 97, 109, 101, 63, 61, 39, 37, 110, 37, 112, 39], fpBase := 0, fpLimit := 3, fpNextBase := 5, totalMatch := true, prematch0 := none, prematch1 := 0, fp := 0, fp0 := 0, which := SegW.T, attrNum := -1, base := none, limit := 0, scan := 0, lastN := 0, out := [], fatal := false } : Scanner)).2 w = { fmt := [116, 97, 103, 63, 32, 110, 97, 109, 101, 63, 61, 39, 37, 110, 37, 112, 39], fpBase := 0, fpLimit := 3, fpNextBase := 5, totalMatch := true, prematch0 := none, prematch1 := 0, fp := 0, fp0 := 0, which := SegW.T, attrNum := -1, base := some [], limit := 0, scan := 0, lastN := 0, out := [], fatal := false } := by
    simp only [load_tag, hwtag]; decide
  rw [h2t]
  have h3t : finish_segment { fmt := [116, 97, 103, 63, 32, 110, 97, 109, 101, 63, 61, 39, 37, 110, 37, 112, 39], fpBase := 0, fpLimit := 3, fpNextBase := 5, totalMatch := true, prematch0 := none, prematch1 := 0, fp := 0, fp0 := 0, which := SegW.T, attrNum := -1, base := some [], limit := 0, scan := 0, lastN := 0, out := [], fatal := false } = (false, { fmt := [116, 97, 103, 63, 32, 110, 97, 109, 101, 63, 61, 39, 37, 110, 37, 112, 39], fpBase := 0, fpLimit := 3, fpNextBase := 5, totalMatch := true, prematch0 := none, prematch1 := 0, fp := 3, fp0 := 0, which := SegW.T, attrNum := -1, base := some [], limit := 0, scan := 0, lastN := 0, out := [], fatal := false }) := by decide
  rw [h3t]
  dsimp only
  simp only [Bool.false_eq_true, not_false_eq_true, if_true]

end JdkXmlScan

namespace JdkXmlScan

/-- C8: with the pattern `tag? name?='%n%p'` on a markup line whose
tag is `tag`, `scan_elem` returns `true` both when the attribute
`name` is absent (storing `-1` for the position conversion and a null
pointer for the pointer conversion) and when it is present at any
index `i` (storing that attribute number, through the 32-bit int
conversion the va_list write performs, and a pointer to that
attribute's value); but, correcting the spec, a total tag does NOT
allow TEXT lines to be accepted: a null-tag line fails the literal
tag match, total or not (only a wildcard tag accepts TEXT lines). -/
theorem C8_total_match_amended (v w : XmlView)
    (htag : v.tag = some [116,97,103])
    (hwkind : w.kind = JdkXmlInput.LineKind.TEXT) (hwtag : w.tag = none) :
    (JdkXmlInput.attr_index_len v.attrs [110,97,109,101] = -1 →
       va_scan_elem v 0 C8fmt = (true, [StoreVal.iv (-1), StoreVal.pv none], 0)) ∧
    (∀ i : Nat, JdkXmlInput.attr_index_len v.attrs [110,97,109,101] = (i : Int) →
       va_scan_elem v 0 C8fmt
         = (true, [StoreVal.iv (wrapCast 32 (i : Int)),
                   StoreVal.pv (some (JdkIstream.cstrOf
                     ((JdkXmlInput.attr_value v.attrs (i : Int)).getD [])))], 0)) ∧
    va_scan_elem w 0 C8fmt = (false, [], 0) :=
  ⟨fun h => c8_absent v htag h,
   fun i h => c8_present_gen v htag i h,
   c8_text w hwtag⟩

set_option maxRecDepth 40000 in
/-- Witness for C8: the element view of `<tag z='w' name='v1'/>` (tag
`tag`, attribute `name` in second position) and the TEXT view of a
plain line. -/
theorem C8_total_match_amended_witness :
    (({ kind := JdkXmlInput.LineKind.ELEM, tag := some [116,97,103], attrs := [{ name := [122], value := [119] }, { name := [110,97,109,101], value := [118,49] }] } : XmlView)).tag = some [116,97,103] ∧
    (({ kind := JdkXmlInput.LineKind.TEXT, tag := none, attrs := [] } : XmlView)).kind = JdkXmlInput.LineKind.TEXT ∧
    (({ kind := JdkXmlInput.LineKind.TEXT, tag := none, attrs := [] } : XmlView)).tag = none ∧
    ((JdkXmlInput.attr_index_len (({ kind := JdkXmlInput.LineKind.ELEM, tag := some [116,97,103], attrs := [{ name := [122], value := [119] }, { name := [110,97,109,101], value := [118,49] }] } : XmlView)).attrs [110,97,109,101] = -1 →
       va_scan_elem { kind := JdkXmlInput.LineKind.ELEM, tag := some [116,97,103], attrs := [{ name := [122], value := [119] }, { name := [110,97,109,101], value := [118,49] }] } 0 C8fmt = (true, [StoreVal.iv (-1), StoreVal.pv none], 0)) ∧
     (∀ i : Nat, JdkXmlInput.attr_index_len (({ kind := JdkXmlInput.LineKind.ELEM, tag := some [116,97,103], attrs := [{ name := [122], value := [119] }, { name := [110,97,109,101], value := [118,49] }] } : XmlView)).attrs [110,97,109,101] = (i : Int) →
       va_scan_elem { kind := JdkXmlInput.LineKind.ELEM, tag := some [116,97,103], attrs := [{ name := [122], value := [119] }, { name := [110,97,109,101], value := [118,49] }] } 0 C8fmt
         = (true, [StoreVal.iv (wrapCast 32 (i : Int)),
                   StoreVal.pv (some (JdkIstream.cstrOf
                     ((JdkXmlInput.attr_value (({ kind := JdkXmlInput.LineKind.ELEM, tag := some [116,97,103], attrs := [{ name := [122], value := [119] }, { name := [110,97,109,101], value := [118,49] }] } : XmlView)).attrs (i : Int)).getD [])))], 0)) ∧
     va_scan_elem { kind := JdkXmlInput.LineKind.TEXT, tag := none, attrs := [] } 0 C8fmt = (false, [], 0)) :=
  ⟨by decide, by decide, by decide,
   C8_total_match_amended
     { kind := JdkXmlInput.LineKind.ELEM, tag := some [116,97,103], attrs := [{ name := [122], value := [119] }, { name := [110,97,109,101], value := [118,49] }] }
     { kind := JdkXmlInput.LineKind.TEXT, tag := none, attrs := [] }
     (by decide) (by decide) (by decide)⟩

set_option maxRecDepth 40000 in
/-- Counterexample for C8 as stated: on the TEXT line `hello` the C8
pattern is rejected even though the tag is total, while the element
line `<tag/>` (attribute absent) is accepted with `-1` and
null-pointer stores — a total tag does not make TEXT lines
acceptable. -/
theorem C8_total_tag_text_counterexample :
    scan_elem [104, 101, 108, 108, 111] C8fmt = (false, []) ∧
    scan_elem [60, 116, 97, 103, 47, 62] C8fmt
      = (true, [StoreVal.iv (-1), StoreVal.pv none]) :=
  ⟨by decide, by decide⟩

end JdkXmlScan

namespace JdkIstream

/-- Writing `D` over the equally long middle piece `C`. -/
theorem lwr_pad (A C B D : List Nat) (h : C.length = D.length) :
    listWriteRange (A ++ (C ++ B)) A.length D = A ++ (D ++ B) := by
  have hd : (A ++ (C ++ B)).drop (A.length + D.length) = B := by
    rw [← h]
    have h2 : A ++ (C ++ B) = (A ++ C) ++ B := by simp
    rw [h2, show A.length + C.length = (A ++ C).length by simp, List.drop_left]
  rw [listWriteRange, List.take_left, hd, List.append_assoc]

/-- The C-string view stops at an appended NUL. -/
theorem cstrOf_append_zero (t z : List Nat) (hz : (0:Nat) ∉ t) :
    cstrOf (t ++ 0 :: z) = t := by
  induction t with
  | nil => simp [cstrOf]
  | cons a as ih =>
    simp only [List.mem_cons, not_or] at hz
    have ha : a ≠ 0 := fun h => hz.1 h.symm
    simp only [cstrOf, List.cons_append, List.takeWhile_cons] at ih ⊢
    rw [if_pos (by simpa using ha)]
    rw [ih hz.2]

/-- Setting the byte right after `t`. -/
theorem set_after (t z : List Nat) (b v : Nat) :
    (t ++ b :: z).set t.length v = t ++ v :: z := by
  rw [List.set_append_right _ _ (le_refl _)]
  simp

end JdkIstream

namespace JdkIstream

/-- Setting the byte after `A ++ C ++ m` inside a padded buffer. -/
theorem set_pad3 (A C m B2 : List Nat) (b v : Nat) :
    (A ++ (C ++ (m ++ b :: B2))).set (A.length + C.length + m.length) v
      = A ++ (C ++ (m ++ v :: B2)) := by
  rw [List.set_append_right _ _ (by omega)]
  congr 1
  rw [show A.length + C.length + m.length - A.length = C.length + m.length by omega]
  rw [List.set_append_right _ _ (by omega)]
  congr 1
  rw [show C.length + m.length - C.length = m.length by omega]
  exact set_after m B2 b v

end JdkIstream


namespace JdkIstream

/-- Taking exactly through the middle component. -/
theorem take_append_exact (A X Q : List Nat) :
    (A ++ (X ++ Q)).take (A.length + X.length) = A ++ X := by
  rw [show A ++ (X ++ Q) = (A ++ X) ++ Q by simp,
      show A.length + X.length = (A ++ X).length by simp, List.take_left]

/-- A write that reaches exactly to the end of the buffer. -/
theorem lwr_end (l data : List Nat) (off : Nat) (h : off + data.length = l.length) :
    listWriteRange l off data = l.take off ++ data := by
  rw [listWriteRange, h, List.drop_length, List.append_nil]

end JdkIstream

namespace JdkIstream

/-- One `pushback_input` call on a stream with a newline-terminated
current line at the front of the pending content: the pending region
gets its newline rematerialized and moves (with buffer growth or
compaction as needed) to the very end of the buffer, the pushed bytes
land directly before it, and `set_buffer_content` runs over both.  The
buffer never shrinks. -/
theorem pushback_gen1 (s : IStream) (P0 m B2 Q0 D : List Nat)
    (hbuf : s.buffer = P0 ++ ((m ++ 0 :: B2) ++ Q0))
    (hbeg : s.beg = P0.length)
    (hen : s.en = s.beg + m.length)
    (hce : s.contentEnd = P0.length + (m.length + 1 + B2.length))
    (hle : s.lineEnding = 1)
    (hsmall : SMALL_SIZE ≤ s.buffer.length) :
    ∃ T1 : List Nat,
      pushback_input s D false =
        set_buffer_content
          { s with buffer := T1 ++ (D ++ (m ++ 10 :: B2)), lineno := s.lineno - 1 }
          T1.length (T1.length + (D.length + (m.length + 1 + B2.length))) ∧
      s.buffer.length ≤ T1.length + (D.length + (m.length + 1 + B2.length)) := by
  have hlen : s.buffer.length = P0.length + (m.length + 1 + B2.length) + Q0.length := by
    rw [hbuf]; simp; omega
  have hsm : SMALL_SIZE ≤ P0.length + (m.length + 1 + B2.length) + Q0.length := by
    omega
  have hdd : definitely_done s = false := by
    simp only [definitely_done, decide_eq_false_iff_not, not_lt]
    omega
  have hcl : have_current_line s = true := by
    simp only [have_current_line, decide_eq_true_eq]
    omega
  have hset : s.buffer.set s.en 10 = P0 ++ ((m ++ 10 :: B2) ++ Q0) := by
    rw [hbuf, hen, hbeg]
    rw [set_pad _ _ _ _ _ (by simp; try omega)]
    rw [set_after]
  simp only [pushback_input, Bool.false_and, if_false, hdd, hcl, hle,
    Bool.false_eq_true, if_true, Bool.not_false]
  simp only [show ((1:Nat) = 2) = False from by simp, show ((1:Nat) = 0) = False from by simp,
    not_false_eq_true, if_true, if_false, hset]
  rw [if_pos (show s.beg ≤ s.en from by omega)]
  dsimp only
  have hsub : s.contentEnd - s.beg = m.length + 1 + B2.length := by omega
  have hlen2 : (P0 ++ ((m ++ 10 :: B2) ++ Q0)).length
      = P0.length + (m.length + 1 + B2.length) + Q0.length := by
    simp; omega
  simp only [hsub, hlen2]
  rw [if_pos (show m.length + 1 + B2.length ≠ 0 from by omega)]
  by_cases hexp : P0.length + Q0.length < D.length
  · rw [if_pos (show P0.length + (m.length + 1 + B2.length) + Q0.length
        < D.length + (m.length + 1 + B2.length) from by omega)]
    have hxp : expand_buffer
        { s with buffer := P0 ++ ((m ++ 10 :: B2) ++ Q0), lineno := s.lineno - 1,
                 lineEnding := 1 }
        (D.length + (m.length + 1 + B2.length))
        = (true, { s with buffer := (P0 ++ (m ++ 10 :: B2)) ++ List.replicate (D.length - P0.length) 0, lineno := s.lineno - 1, lineEnding := 1 }) := by
      have hbufx : (P0 ++ ((m ++ 10 :: B2) ++ Q0)).take s.contentEnd
            ++ List.replicate (D.length + (m.length + 1 + B2.length) - s.contentEnd) 0
          = (P0 ++ (m ++ 10 :: B2)) ++ List.replicate (D.length - P0.length) 0 := by
        rw [hce]
        rw [show P0.length + (m.length + 1 + B2.length)
              = P0.length + (m ++ 10 :: B2).length from by simp <;> omega]
        rw [take_append_exact]
        rw [show D.length + (m.length + 1 + B2.length)
              - (P0.length + (m ++ 10 :: B2).length)
              = D.length - P0.length from by simp <;> omega]
      simp only [expand_buffer]
      rw [if_neg (show ¬ (D.length + (m.length + 1 + B2.length) ≤ SMALL_SIZE) from by
        simp only [SMALL_SIZE] at hsm ⊢
        omega)]
      rw [hbufx]
    rw [hxp]
    dsimp only
    have hNBlen : (P0 ++ (m ++ 10 :: B2) ++ List.replicate (D.length - P0.length) 0).length
        = D.length + (m.length + 1 + B2.length) := by
      simp <;> omega
    simp only [hNBlen]
    rw [if_pos (show 0 < m.length + 1 + B2.length from by omega)]
    rw [if_pos (show D.length + (m.length + 1 + B2.length) - (m.length + 1 + B2.length)
          ≠ s.beg from by omega)]
    dsimp only
    rw [hbeg]
    have hsl : slice (P0 ++ (m ++ 10 :: B2) ++ List.replicate (D.length - P0.length) 0)
        P0.length (P0.length + (m.length + 1 + B2.length)) = m ++ 10 :: B2 := by
      rw [List.append_assoc]
      rw [show P0.length + (m.length + 1 + B2.length)
            = P0.length + (m ++ 10 :: B2).length from by simp <;> omega]
      exact slice_pad _ _ _
    rw [hsl]
    rw [show D.length + (m.length + 1 + B2.length) - (m.length + 1 + B2.length)
          = D.length from by omega]
    rw [lwr_end (P0 ++ (m ++ 10 :: B2) ++ List.replicate (D.length - P0.length) 0)
          (m ++ 10 :: B2) D.length (by simp <;> omega)]
    rw [show D.length - D.length = 0 from by omega]
    rw [listWriteRange, List.drop_left' (by simp <;> omega)]
    refine ⟨[], ?_, by omega⟩
    simp only [List.take_zero, List.nil_append, List.length_nil, Nat.zero_add]
    done
  · rw [if_neg (show ¬ (P0.length + (m.length + 1 + B2.length) + Q0.length
          < D.length + (m.length + 1 + B2.length)) from by omega)]
    dsimp only
    simp only [hlen2]
    by_cases hq : Q0 = []
    · subst hq
      simp only [List.append_nil, List.length_nil, Nat.add_zero] at hlen hexp hlen2 ⊢
      rw [if_neg (show ¬ (P0.length + (m.length + 1 + B2.length)
            - (m.length + 1 + B2.length) ≠ s.beg) from by omega)]
      rw [if_pos (show 0 < m.length + 1 + B2.length from by omega)]
      dsimp only
      rw [show P0.length + (m.length + 1 + B2.length) - (m.length + 1 + B2.length) - D.length
            = P0.length - D.length from by omega]
      have hfin : listWriteRange (P0 ++ (m ++ 10 :: B2)) (P0.length - D.length) D
          = P0.take (P0.length - D.length) ++ (D ++ (m ++ 10 :: B2)) := by
        rw [listWriteRange]
        rw [List.take_append_eq_append_take,
            show P0.length - D.length - P0.length = 0 from by omega,
            List.take_zero, List.append_nil,
            show P0.length - D.length + D.length = P0.length from by omega,
            List.drop_left, List.append_assoc]
      rw [hfin]
      refine ⟨P0.take (P0.length - D.length), ?_, by simp <;> omega⟩
      congr 1
      · simp <;> omega
      · simp <;> omega
    · have hq0 : Q0.length ≠ 0 := fun h => hq (List.length_eq_zero.mp h)
      rw [if_pos (show P0.length + (m.length + 1 + B2.length) + Q0.length
            - (m.length + 1 + B2.length) ≠ s.beg from by omega)]
      rw [if_pos (show 0 < m.length + 1 + B2.length from by omega)]
      dsimp only
      rw [hbeg]
      have hsl2 : slice (P0 ++ ((m ++ 10 :: B2) ++ Q0))
          P0.length (P0.length + (m.length + 1 + B2.length)) = m ++ 10 :: B2 := by
        rw [show P0.length + (m.length + 1 + B2.length)
              = P0.length + (m ++ 10 :: B2).length from by simp <;> omega]
        exact slice_pad _ _ _
      rw [hsl2]
      rw [show P0.length + (m.length + 1 + B2.length) + Q0.length - (m.length + 1 + B2.length)
            = P0.length + Q0.length from by omega]
      rw [lwr_end (P0 ++ ((m ++ 10 :: B2) ++ Q0)) (m ++ 10 :: B2) (P0.length + Q0.length)
            (by simp <;> omega)]
      have hfin2 : listWriteRange
            ((P0 ++ ((m ++ 10 :: B2) ++ Q0)).take (P0.length + Q0.length) ++ (m ++ 10 :: B2))
            (P0.length + Q0.length - D.length) D
          = ((P0 ++ ((m ++ 10 :: B2) ++ Q0)).take (P0.length + Q0.length)).take
              (P0.length + Q0.length - D.length) ++ (D ++ (m ++ 10 :: B2)) := by
        rw [listWriteRange]
        rw [List.take_append_eq_append_take,
            show P0.length + Q0.length - D.length
                - ((P0 ++ ((m ++ 10 :: B2) ++ Q0)).take (P0.length + Q0.length)).length
              = 0 from by simp <;> omega,
            List.take_zero, List.append_nil,
            show P0.length + Q0.length - D.length + D.length
              = P0.length + Q0.length from by omega,
            List.drop_left' (show ((P0 ++ ((m ++ 10 :: B2) ++ Q0)).take
                (P0.length + Q0.length)).length = P0.length + Q0.length from by simp <;> omega),
            List.append_assoc]
      rw [hfin2]
      refine ⟨((P0 ++ ((m ++ 10 :: B2) ++ Q0)).take (P0.length + Q0.length)).take
          (P0.length + Q0.length - D.length), ?_, by simp <;> omega⟩
      congr 1
      · simp <;> omega
      · simp <;> omega

end JdkIstream


namespace JdkIstream

/-- The `pushback_gen1` analogue for a CRLF-terminated current line
(`line_ending = 2`): both terminator bytes are rematerialized before
the pending region moves to the end of the buffer. -/
theorem pushback_gen2 (s : IStream) (P0 m B2 Q0 D : List Nat)
    (hbuf : s.buffer = P0 ++ ((m ++ 0 :: 0 :: B2) ++ Q0))
    (hbeg : s.beg = P0.length)
    (hen : s.en = s.beg + m.length + 1)
    (hce : s.contentEnd = P0.length + (m.length + 2 + B2.length))
    (hle : s.lineEnding = 2)
    (hsmall : SMALL_SIZE ≤ s.buffer.length) :
    ∃ T1 : List Nat,
      pushback_input s D false =
        set_buffer_content
          { s with buffer := T1 ++ (D ++ (m ++ 13 :: 10 :: B2)), lineno := s.lineno - 1 }
          T1.length (T1.length + (D.length + (m.length + 2 + B2.length))) ∧
      s.buffer.length ≤ T1.length + (D.length + (m.length + 2 + B2.length)) := by
  have hlen : s.buffer.length = P0.length + (m.length + 2 + B2.length) + Q0.length := by
    rw [hbuf]; simp; omega
  have hsm : SMALL_SIZE ≤ P0.length + (m.length + 2 + B2.length) + Q0.length := by
    omega
  have hdd : definitely_done s = false := by
    simp only [definitely_done, decide_eq_false_iff_not, not_lt]
    omega
  have hcl : have_current_line s = true := by
    simp only [have_current_line, decide_eq_true_eq]
    omega
  have hset1 : s.buffer.set s.en 10 = P0 ++ ((m ++ 0 :: 10 :: B2) ++ Q0) := by
    rw [hbuf, hen, hbeg]
    rw [show P0.length + m.length + 1 = P0.length + (m.length + 1) from by omega]
    rw [set_pad _ _ _ _ _ (by simp; try omega)]
    rw [show m ++ 0 :: 0 :: B2 = (m ++ [0]) ++ 0 :: B2 from by simp]
    rw [show m.length + 1 = (m ++ [0]).length from by simp]
    rw [set_after]
    simp
  have hset2 : (P0 ++ ((m ++ 0 :: 10 :: B2) ++ Q0)).set (s.en - 1) 13
      = P0 ++ ((m ++ 13 :: 10 :: B2) ++ Q0) := by
    rw [show s.en - 1 = P0.length + m.length from by omega]
    rw [set_pad _ _ _ _ _ (by simp; try omega)]
    rw [set_after]
  simp only [pushback_input, Bool.false_and, if_false, hdd, hcl, hle,
    Bool.false_eq_true, if_true, Bool.not_false]
  simp only [show ((2:Nat) = 2) = True from by simp,
    not_false_eq_true, if_true, if_false, hset1, hset2]
  rw [if_pos (show s.beg ≤ s.en from by omega)]
  dsimp only
  have hsub : s.contentEnd - s.beg = m.length + 2 + B2.length := by omega
  have hlen2 : (P0 ++ ((m ++ 13 :: 10 :: B2) ++ Q0)).length
      = P0.length + (m.length + 2 + B2.length) + Q0.length := by
    simp; omega
  simp only [hsub, hlen2]
  rw [if_pos (show m.length + 2 + B2.length ≠ 0 from by omega)]
  by_cases hexp : P0.length + Q0.length < D.length
  · rw [if_pos (show P0.length + (m.length + 2 + B2.length) + Q0.length
        < D.length + (m.length + 2 + B2.length) from by omega)]
    have hxp : expand_buffer
        { s with buffer := P0 ++ ((m ++ 13 :: 10 :: B2) ++ Q0), lineno := s.lineno - 1,
                 lineEnding := 2 }
        (D.length + (m.length + 2 + B2.length))
        = (true, { s with buffer := (P0 ++ (m ++ 13 :: 10 :: B2)) ++ List.replicate (D.length - P0.length) 0, lineno := s.lineno - 1, lineEnding := 2 }) := by
      have hbufx : (P0 ++ ((m ++ 13 :: 10 :: B2) ++ Q0)).take s.contentEnd
            ++ List.replicate (D.length + (m.length + 2 + B2.length) - s.contentEnd) 0
          = (P0 ++ (m ++ 13 :: 10 :: B2)) ++ List.replicate (D.length - P0.length) 0 := by
        rw [hce]
        rw [show P0.length + (m.length + 2 + B2.length)
              = P0.length + (m ++ 13 :: 10 :: B2).length from by simp <;> omega]
        rw [take_append_exact]
        rw [show D.length + (m.length + 2 + B2.length)
              - (P0.length + (m ++ 13 :: 10 :: B2).length)
              = D.length - P0.length from by simp <;> omega]
      simp only [expand_buffer]
      rw [if_neg (show ¬ (D.length + (m.length + 2 + B2.length) ≤ SMALL_SIZE) from by
        simp only [SMALL_SIZE] at hsm ⊢
        omega)]
      rw [hbufx]
    rw [hxp]
    dsimp only
    have hNBlen : (P0 ++ (m ++ 13 :: 10 :: B2) ++ List.replicate (D.length - P0.length) 0).length
        = D.length + (m.length + 2 + B2.length) := by
      simp <;> omega
    simp only [hNBlen]
    rw [if_pos (show 0 < m.length + 2 + B2.length from by omega)]
    rw [if_pos (show D.length + (m.length + 2 + B2.length) - (m.length + 2 + B2.length)
          ≠ s.beg from by omega)]
    dsimp only
    rw [hbeg]
    have hsl : slice (P0 ++ (m ++ 13 :: 10 :: B2) ++ List.replicate (D.length - P0.length) 0)
        P0.length (P0.length + (m.length + 2 + B2.length)) = m ++ 13 :: 10 :: B2 := by
      rw [List.append_assoc]
      rw [show P0.length + (m.length + 2 + B2.length)
            = P0.length + (m ++ 13 :: 10 :: B2).length from by simp <;> omega]
      exact slice_pad _ _ _
    rw [hsl]
    rw [show D.length + (m.length + 2 + B2.length) - (m.length + 2 + B2.length)
          = D.length from by omega]
    rw [lwr_end (P0 ++ (m ++ 13 :: 10 :: B2) ++ List.replicate (D.length - P0.length) 0)
          (m ++ 13 :: 10 :: B2) D.length (by simp <;> omega)]
    rw [show D.length - D.length = 0 from by omega]
    rw [listWriteRange, List.drop_left' (by simp <;> omega)]
    refine ⟨[], ?_, by omega⟩
    simp only [List.take_zero, List.nil_append, List.length_nil, Nat.zero_add]
    done
  · rw [if_neg (show ¬ (P0.length + (m.length + 2 + B2.length) + Q0.length
          < D.length + (m.length + 2 + B2.length)) from by omega)]
    dsimp only
    simp only [hlen2]
    by_cases hq : Q0 = []
    · subst hq
      simp only [List.append_nil, List.length_nil, Nat.add_zero] at hlen hexp hlen2 ⊢
      rw [if_neg (show ¬ (P0.length + (m.length + 2 + B2.length)
            - (m.length + 2 + B2.length) ≠ s.beg) from by omega)]
      rw [if_pos (show 0 < m.length + 2 + B2.length from by omega)]
      dsimp only
      rw [show P0.length + (m.length + 2 + B2.length) - (m.length + 2 + B2.length) - D.length
            = P0.length - D.length from by omega]
      have hfin : listWriteRange (P0 ++ (m ++ 13 :: 10 :: B2)) (P0.length - D.length) D
          = P0.take (P0.length - D.length) ++ (D ++ (m ++ 13 :: 10 :: B2)) := by
        rw [listWriteRange]
        rw [List.take_append_eq_append_take,
            show P0.length - D.length - P0.length = 0 from by omega,
            List.take_zero, List.append_nil,
            show P0.length - D.length + D.length = P0.length from by omega,
            List.drop_left, List.append_assoc]
      rw [hfin]
      refine ⟨P0.take (P0.length - D.length), ?_, by simp <;> omega⟩
      congr 1
      · simp <;> omega
      · simp <;> omega
    · have hq0 : Q0.length ≠ 0 := fun h => hq (List.length_eq_zero.mp h)
      rw [if_pos (show P0.length + (m.length + 2 + B2.length) + Q0.length
            - (m.length + 2 + B2.length) ≠ s.beg from by omega)]
      rw [if_pos (show 0 < m.length + 2 + B2.length from by omega)]
      dsimp only
      rw [hbeg]
      have hsl2 : slice (P0 ++ ((m ++ 13 :: 10 :: B2) ++ Q0))
          P0.length (P0.length + (m.length + 2 + B2.length)) = m ++ 13 :: 10 :: B2 := by
        rw [show P0.length + (m.length + 2 + B2.length)
              = P0.length + (m ++ 13 :: 10 :: B2).length from by simp <;> omega]
        exact slice_pad _ _ _
      rw [hsl2]
      rw [show P0.length + (m.length + 2 + B2.length) + Q0.length - (m.length + 2 + B2.length)
            = P0.length + Q0.length from by omega]
      rw [lwr_end (P0 ++ ((m ++ 13 :: 10 :: B2) ++ Q0)) (m ++ 13 :: 10 :: B2) (P0.length + Q0.length)
            (by simp <;> omega)]
      have hfin2 : listWriteRange
            ((P0 ++ ((m ++ 13 :: 10 :: B2) ++ Q0)).take (P0.length + Q0.length) ++ (m ++ 13 :: 10 :: B2))
            (P0.length + Q0.length - D.length) D
          = ((P0 ++ ((m ++ 13 :: 10 :: B2) ++ Q0)).take (P0.length + Q0.length)).take
              (P0.length + Q0.length - D.length) ++ (D ++ (m ++ 13 :: 10 :: B2)) := by
        rw [listWriteRange]
        rw [List.take_append_eq_append_take,
            show P0.length + Q0.length - D.length
                - ((P0 ++ ((m ++ 13 :: 10 :: B2) ++ Q0)).take (P0.length + Q0.length)).length
              = 0 from by simp <;> omega,
            List.take_zero, List.append_nil,
            show P0.length + Q0.length - D.length + D.length
              = P0.length + Q0.length from by omega,
            List.drop_left' (show ((P0 ++ ((m ++ 13 :: 10 :: B2) ++ Q0)).take
                (P0.length + Q0.length)).length = P0.length + Q0.length from by simp <;> omega),
            List.append_assoc]
      rw [hfin2]
      refine ⟨((P0 ++ ((m ++ 13 :: 10 :: B2) ++ Q0)).take (P0.length + Q0.length)).take
          (P0.length + Q0.length - D.length), ?_, by simp <;> omega⟩
      congr 1
      · simp <;> omega
      · simp <;> omega

end JdkIstream

namespace JdkIstream

/-- `sbc_pad_nl` with the region bounds given as equalities, for
rewrites at call sites whose arithmetic differs in shape. -/
theorem sbc_pad_nl2 (s : IStream) (P X Y Q : List Nat) (cs ce : Nat)
    (hX : 10 ∉ X) (hc : X.getLast? ≠ some 13)
    (hbuf : s.buffer = P ++ ((X ++ 10 :: Y) ++ Q))
    (hcs : cs = P.length) (hce : ce = P.length + (X.length + 1 + Y.length)) :
    set_buffer_content s cs ce =
      { s with buffer := P ++ ((X ++ 0 :: Y) ++ Q), beg := P.length,
               contentEnd := P.length + (X.length + 1 + Y.length),
               en := P.length + X.length, lineEnding := 1,
               lineno := s.lineno + 1 } := by
  subst hcs hce
  exact sbc_pad_nl s P X Y Q hX hc hbuf

/-- `sbc_pad_cr` with the region bounds given as equalities. -/
theorem sbc_pad_cr2 (s : IStream) (P T Y Q : List Nat) (cs ce : Nat)
    (hT : 10 ∉ T)
    (hbuf : s.buffer = P ++ (((T ++ [13]) ++ 10 :: Y) ++ Q))
    (hcs : cs = P.length) (hce : ce = P.length + (T.length + 2 + Y.length)) :
    set_buffer_content s cs ce =
      { s with buffer := P ++ (((T ++ [0]) ++ 0 :: Y) ++ Q), beg := P.length,
               contentEnd := P.length + (T.length + 2 + Y.length),
               en := P.length + (T.length + 1), lineEnding := 2,
               lineno := s.lineno + 1 } := by
  subst hcs hce
  exact sbc_pad_cr s P T Y Q hT hbuf

end JdkIstream

namespace JdkIstream

/-- Round trip of a newline-terminated current line at an arbitrary
buffer position (junk `P` before it, pending content `R`, trailing
slack `Q`): `save_line`, pushback of the line ending, pushback of the
saved copy restore both the C-string view and the reported length of
the current line, through whatever buffer growth or compaction the two
pushbacks need. -/
theorem C3_roundtrip_gle1 (s : IStream) (P t R Q : List Nat)
    (hbuf : s.buffer = P ++ ((t ++ 0 :: R) ++ Q))
    (hbeg : s.beg = P.length)
    (hen : s.en = s.beg + t.length)
    (hce : s.contentEnd = P.length + (t.length + 1 + R.length))
    (hle : s.lineEnding = 1)
    (hsmall : SMALL_SIZE ≤ s.buffer.length)
    (hz : (0:Nat) ∉ t) (hnl : (10:Nat) ∉ t) (hcr : t.getLast? ≠ some 13) :
    (current_line_cstr (pushback_cstr (pushback_cstr
        (current_line_ending (save_line s).2).2
        (current_line_ending (save_line s).2).1) (save_line s).1)).1
      = (current_line_cstr s).1 ∧
    (current_line_length (pushback_cstr (pushback_cstr
        (current_line_ending (save_line s).2).2
        (current_line_ending (save_line s).2).1) (save_line s).1)).1
      = (current_line_length s).1 := by
  have hlen : s.buffer.length = P.length + (t.length + 1 + R.length) + Q.length := by
    rw [hbuf]; simp; omega
  have hntr : need_to_read s = false := by
    simp only [need_to_read, beq_eq_false_iff_ne, ne_eq]
    omega
  have hpre : preload s = s := by simp [preload, hntr]
  have hdd : definitely_done s = false := by
    simp only [definitely_done, decide_eq_false_iff_not, not_lt]
    omega
  have hassoc : s.buffer = P ++ (t ++ (0 :: (R ++ Q))) := by
    rw [hbuf]; simp
  have hslice : slice s.buffer s.beg s.en = t := by
    rw [hassoc, hbeg, hen, hbeg]
    exact slice_pad P t (0 :: (R ++ Q))
  have hsl : save_line s = (t ++ [0], s) := by
    simp only [save_line, current_line_sized, hpre, hdd, Bool.false_eq_true,
      if_false, hslice]
  have hcle : current_line_ending s = ([10], s) := by
    simp only [current_line_ending, hpre, hle]
    simp
  rw [hsl, hcle]
  dsimp only
  obtain ⟨T1, hpb1, hgrow1⟩ := pushback_gen1 s P t R Q [10] hbuf hbeg hen hce hle hsmall
  have hgrow1a : s.buffer.length ≤ T1.length + (1 + (t.length + 1 + R.length)) := by
    simpa using hgrow1
  have hS3 : pushback_cstr s [10] = { s with buffer := T1 ++ (([] ++ 0 :: (t ++ 10 :: R)) ++ []), beg := T1.length, contentEnd := T1.length + (([] : List Nat).length + 1 + (t ++ 10 :: R).length), en := T1.length + ([] : List Nat).length, lineEnding := 1, lineno := s.lineno - 1 + 1 } := by
    rw [show pushback_cstr s [10] = pushback_input s [10] false from rfl, hpb1]
    exact sbc_pad_nl2 _ T1 [] (t ++ 10 :: R) [] _ _ (by simp) (by simp) (by simp)
      (by simp) (by simp <;> try omega)
  have hsmall2 : SMALL_SIZE ≤ ({ s with buffer := T1 ++ (([] ++ 0 :: (t ++ 10 :: R)) ++ []), beg := T1.length, contentEnd := T1.length + (([] : List Nat).length + 1 + (t ++ 10 :: R).length), en := T1.length + ([] : List Nat).length, lineEnding := 1, lineno := s.lineno - 1 + 1 } : IStream).buffer.length := by
    simp
    omega
  obtain ⟨T2, hpb2, hgrow2⟩ := pushback_gen1 { s with buffer := T1 ++ (([] ++ 0 :: (t ++ 10 :: R)) ++ []), beg := T1.length, contentEnd := T1.length + (([] : List Nat).length + 1 + (t ++ 10 :: R).length), en := T1.length + ([] : List Nat).length, lineEnding := 1, lineno := s.lineno - 1 + 1 }
    T1 [] (t ++ 10 :: R) [] t rfl rfl rfl rfl rfl hsmall2
  have hco : cstrOf (t ++ [0]) = t := cstrOf_append_zero t [] hz
  have hS4 : pushback_cstr { s with buffer := T1 ++ (([] ++ 0 :: (t ++ 10 :: R)) ++ []), beg := T1.length, contentEnd := T1.length + (([] : List Nat).length + 1 + (t ++ 10 :: R).length), en := T1.length + ([] : List Nat).length, lineEnding := 1, lineno := s.lineno - 1 + 1 } (t ++ [0]) = { s with buffer := T2 ++ ((t ++ 0 :: (t ++ 10 :: R)) ++ []), beg := T2.length, contentEnd := T2.length + (t.length + 1 + (t ++ 10 :: R).length), en := T2.length + t.length, lineEnding := 1, lineno := s.lineno - 1 + 1 - 1 + 1 } := by
    rw [show pushback_cstr ({ s with buffer := T1 ++ (([] ++ 0 :: (t ++ 10 :: R)) ++ []), beg := T1.length, contentEnd := T1.length + (([] : List Nat).length + 1 + (t ++ 10 :: R).length), en := T1.length + ([] : List Nat).length, lineEnding := 1, lineno := s.lineno - 1 + 1 } : IStream) (t ++ [0])
          = pushback_input { s with buffer := T1 ++ (([] ++ 0 :: (t ++ 10 :: R)) ++ []), beg := T1.length, contentEnd := T1.length + (([] : List Nat).length + 1 + (t ++ 10 :: R).length), en := T1.length + ([] : List Nat).length, lineEnding := 1, lineno := s.lineno - 1 + 1 } (cstrOf (t ++ [0])) false from rfl, hco, hpb2]
    exact sbc_pad_nl2 _ T2 t (t ++ 10 :: R) [] _ _ hnl hcr (by simp) (by simp)
      (by simp <;> try omega)
  rw [hS3, hS4]
  have hntr4 : need_to_read ({ s with buffer := T2 ++ ((t ++ 0 :: (t ++ 10 :: R)) ++ []), beg := T2.length, contentEnd := T2.length + (t.length + 1 + (t ++ 10 :: R).length), en := T2.length + t.length, lineEnding := 1, lineno := s.lineno - 1 + 1 - 1 + 1 } : IStream) = false := by
    simp only [need_to_read, beq_eq_false_iff_ne, ne_eq]
    simp
    try omega
  have hpre4 : preload ({ s with buffer := T2 ++ ((t ++ 0 :: (t ++ 10 :: R)) ++ []), beg := T2.length, contentEnd := T2.length + (t.length + 1 + (t ++ 10 :: R).length), en := T2.length + t.length, lineEnding := 1, lineno := s.lineno - 1 + 1 - 1 + 1 } : IStream) = { s with buffer := T2 ++ ((t ++ 0 :: (t ++ 10 :: R)) ++ []), beg := T2.length, contentEnd := T2.length + (t.length + 1 + (t ++ 10 :: R).length), en := T2.length + t.length, lineEnding := 1, lineno := s.lineno - 1 + 1 - 1 + 1 } := by
    simp only [preload, hntr4, Bool.false_eq_true, if_false]
  have hdd4 : definitely_done ({ s with buffer := T2 ++ ((t ++ 0 :: (t ++ 10 :: R)) ++ []), beg := T2.length, contentEnd := T2.length + (t.length + 1 + (t ++ 10 :: R).length), en := T2.length + t.length, lineEnding := 1, lineno := s.lineno - 1 + 1 - 1 + 1 } : IStream) = false := by
    simp only [definitely_done, decide_eq_false_iff_not, not_lt]
    simp
    try omega
  have hcstr4 : (current_line_cstr ({ s with buffer := T2 ++ ((t ++ 0 :: (t ++ 10 :: R)) ++ []), beg := T2.length, contentEnd := T2.length + (t.length + 1 + (t ++ 10 :: R).length), en := T2.length + t.length, lineEnding := 1, lineno := s.lineno - 1 + 1 - 1 + 1 } : IStream)).1 = t := by
    simp only [current_line_cstr, hpre4, hdd4, Bool.false_eq_true, if_false]
    rw [List.drop_left]
    simpa using cstrOf_append_zero t (t ++ 10 :: R) hz
  have hcstr_s : (current_line_cstr s).1 = t := by
    simp only [current_line_cstr, hpre, hdd, Bool.false_eq_true, if_false]
    rw [hbuf, hbeg, List.drop_left]
    have h2 := cstrOf_append_zero t (R ++ Q) hz
    simpa using h2
  have hlen4 : (current_line_length ({ s with buffer := T2 ++ ((t ++ 0 :: (t ++ 10 :: R)) ++ []), beg := T2.length, contentEnd := T2.length + (t.length + 1 + (t ++ 10 :: R).length), en := T2.length + t.length, lineEnding := 1, lineno := s.lineno - 1 + 1 - 1 + 1 } : IStream)).1 = t.length := by
    simp only [current_line_length, hpre4]
    simp
    try omega
  have hlen_s : (current_line_length s).1 = t.length := by
    simp only [current_line_length, hpre]
    omega
  rw [hcstr4, hcstr_s, hlen4, hlen_s]
  exact ⟨rfl, rfl⟩

end JdkIstream


namespace JdkIstream

/-- Round trip of a CRLF-terminated current line at an arbitrary
buffer position: `save_line`, pushback of the two-byte line ending,
pushback of the saved copy restore both the C-string view and the
reported length of the current line, through whatever buffer growth or
compaction the two pushbacks need. -/
theorem C3_roundtrip_gle2 (s : IStream) (P t R Q : List Nat)
    (hbuf : s.buffer = P ++ ((t ++ 0 :: 0 :: R) ++ Q))
    (hbeg : s.beg = P.length)
    (hen : s.en = s.beg + t.length + 1)
    (hce : s.contentEnd = P.length + (t.length + 2 + R.length))
    (hle : s.lineEnding = 2)
    (hsmall : SMALL_SIZE ≤ s.buffer.length)
    (hz : (0:Nat) ∉ t) (hnl : (10:Nat) ∉ t) :
    (current_line_cstr (pushback_cstr (pushback_cstr
        (current_line_ending (save_line s).2).2
        (current_line_ending (save_line s).2).1) (save_line s).1)).1
      = (current_line_cstr s).1 ∧
    (current_line_length (pushback_cstr (pushback_cstr
        (current_line_ending (save_line s).2).2
        (current_line_ending (save_line s).2).1) (save_line s).1)).1
      = (current_line_length s).1 := by
  have hlen : s.buffer.length = P.length + (t.length + 2 + R.length) + Q.length := by
    rw [hbuf]; simp; omega
  have hntr : need_to_read s = false := by
    simp only [need_to_read, beq_eq_false_iff_ne, ne_eq]
    omega
  have hpre : preload s = s := by simp [preload, hntr]
  have hdd : definitely_done s = false := by
    simp only [definitely_done, decide_eq_false_iff_not, not_lt]
    omega
  have hassoc : s.buffer = P ++ ((t ++ [0]) ++ (0 :: (R ++ Q))) := by
    rw [hbuf]; simp
  have hslice : slice s.buffer s.beg s.en = t ++ [0] := by
    rw [hassoc, hbeg, hen, hbeg]
    rw [show P.length + t.length + 1 = P.length + (t ++ [0]).length from by
      simp <;> try omega]
    exact slice_pad P (t ++ [0]) (0 :: (R ++ Q))
  have hsl : save_line s = ((t ++ [0]) ++ [0], s) := by
    simp only [save_line, current_line_sized, hpre, hdd, Bool.false_eq_true,
      if_false, hslice]
  have hcle : current_line_ending s = ([13, 10], s) := by
    simp only [current_line_ending, hpre, hle]
    simp
  rw [hsl, hcle]
  dsimp only
  obtain ⟨T1, hpb1, hgrow1⟩ := pushback_gen2 s P t R Q [13, 10] hbuf hbeg hen hce hle hsmall
  have hgrow1a : s.buffer.length ≤ T1.length + (2 + (t.length + 2 + R.length)) := by
    simpa using hgrow1
  have hS3 : pushback_cstr s [13, 10] = { s with buffer := T1 ++ ((([] ++ [0]) ++ 0 :: (t ++ 13 :: 10 :: R)) ++ []), beg := T1.length, contentEnd := T1.length + (([] : List Nat).length + 2 + (t ++ 13 :: 10 :: R).length), en := T1.length + (([] : List Nat).length + 1), lineEnding := 2, lineno := s.lineno - 1 + 1 } := by
    rw [show pushback_cstr s [13, 10] = pushback_input s [13, 10] false from rfl, hpb1]
    exact sbc_pad_cr2 _ T1 [] (t ++ 13 :: 10 :: R) [] _ _ (by simp) (by simp)
      (by simp) (by simp <;> try omega)
  have hsmall2 : SMALL_SIZE ≤ ({ s with buffer := T1 ++ ((([] ++ [0]) ++ 0 :: (t ++ 13 :: 10 :: R)) ++ []), beg := T1.length, contentEnd := T1.length + (([] : List Nat).length + 2 + (t ++ 13 :: 10 :: R).length), en := T1.length + (([] : List Nat).length + 1), lineEnding := 2, lineno := s.lineno - 1 + 1 } : IStream).buffer.length := by
    simp
    omega
  obtain ⟨T2, hpb2, hgrow2⟩ := pushback_gen2 { s with buffer := T1 ++ ((([] ++ [0]) ++ 0 :: (t ++ 13 :: 10 :: R)) ++ []), beg := T1.length, contentEnd := T1.length + (([] : List Nat).length + 2 + (t ++ 13 :: 10 :: R).length), en := T1.length + (([] : List Nat).length + 1), lineEnding := 2, lineno := s.lineno - 1 + 1 }
    T1 [] (t ++ 13 :: 10 :: R) [] t (by simp) rfl (by simp) rfl rfl hsmall2
  have hco : cstrOf ((t ++ [0]) ++ [0]) = t := by
    have h2 := cstrOf_append_zero t [0] hz
    simpa using h2
  have hS4 : pushback_cstr { s with buffer := T1 ++ ((([] ++ [0]) ++ 0 :: (t ++ 13 :: 10 :: R)) ++ []), beg := T1.length, contentEnd := T1.length + (([] : List Nat).length + 2 + (t ++ 13 :: 10 :: R).length), en := T1.length + (([] : List Nat).length + 1), lineEnding := 2, lineno := s.lineno - 1 + 1 } ((t ++ [0]) ++ [0]) = { s with buffer := T2 ++ (((t ++ [0]) ++ 0 :: (t ++ 13 :: 10 :: R)) ++ []), beg := T2.length, contentEnd := T2.length + (t.length + 2 + (t ++ 13 :: 10 :: R).length), en := T2.length + (t.length + 1), lineEnding := 2, lineno := s.lineno - 1 + 1 - 1 + 1 } := by
    rw [show pushback_cstr ({ s with buffer := T1 ++ ((([] ++ [0]) ++ 0 :: (t ++ 13 :: 10 :: R)) ++ []), beg := T1.length, contentEnd := T1.length + (([] : List Nat).length + 2 + (t ++ 13 :: 10 :: R).length), en := T1.length + (([] : List Nat).length + 1), lineEnding := 2, lineno := s.lineno - 1 + 1 } : IStream) ((t ++ [0]) ++ [0])
          = pushback_input { s with buffer := T1 ++ ((([] ++ [0]) ++ 0 :: (t ++ 13 :: 10 :: R)) ++ []), beg := T1.length, contentEnd := T1.length + (([] : List Nat).length + 2 + (t ++ 13 :: 10 :: R).length), en := T1.length + (([] : List Nat).length + 1), lineEnding := 2, lineno := s.lineno - 1 + 1 } (cstrOf ((t ++ [0]) ++ [0])) false from rfl, hco, hpb2]
    exact sbc_pad_cr2 _ T2 t (t ++ 13 :: 10 :: R) [] _ _ hnl (by simp) (by simp)
      (by simp <;> try omega)
  rw [hS3, hS4]
  have hntr4 : need_to_read ({ s with buffer := T2 ++ (((t ++ [0]) ++ 0 :: (t ++ 13 :: 10 :: R)) ++ []), beg := T2.length, contentEnd := T2.length + (t.length + 2 + (t ++ 13 :: 10 :: R).length), en := T2.length + (t.length + 1), lineEnding := 2, lineno := s.lineno - 1 + 1 - 1 + 1 } : IStream) = false := by
    simp only [need_to_read, beq_eq_false_iff_ne, ne_eq]
    simp
    try omega
  have hpre4 : preload ({ s with buffer := T2 ++ (((t ++ [0]) ++ 0 :: (t ++ 13 :: 10 :: R)) ++ []), beg := T2.length, contentEnd := T2.length + (t.length + 2 + (t ++ 13 :: 10 :: R).length), en := T2.length + (t.length + 1), lineEnding := 2, lineno := s.lineno - 1 + 1 - 1 + 1 } : IStream) = { s with buffer := T2 ++ (((t ++ [0]) ++ 0 :: (t ++ 13 :: 10 :: R)) ++ []), beg := T2.length, contentEnd := T2.length + (t.length + 2 + (t ++ 13 :: 10 :: R).length), en := T2.length + (t.length + 1), lineEnding := 2, lineno := s.lineno - 1 + 1 - 1 + 1 } := by
    simp only [preload, hntr4, Bool.false_eq_true, if_false]
  have hdd4 : definitely_done ({ s with buffer := T2 ++ (((t ++ [0]) ++ 0 :: (t ++ 13 :: 10 :: R)) ++ []), beg := T2.length, contentEnd := T2.length + (t.length + 2 + (t ++ 13 :: 10 :: R).length), en := T2.length + (t.length + 1), lineEnding := 2, lineno := s.lineno - 1 + 1 - 1 + 1 } : IStream) = false := by
    simp only [definitely_done, decide_eq_false_iff_not, not_lt]
    simp
    try omega
  have hcstr4 : (current_line_cstr ({ s with buffer := T2 ++ (((t ++ [0]) ++ 0 :: (t ++ 13 :: 10 :: R)) ++ []), beg := T2.length, contentEnd := T2.length + (t.length + 2 + (t ++ 13 :: 10 :: R).length), en := T2.length + (t.length + 1), lineEnding := 2, lineno := s.lineno - 1 + 1 - 1 + 1 } : IStream)).1 = t := by
    simp only [current_line_cstr, hpre4, hdd4, Bool.false_eq_true, if_false]
    rw [List.drop_left]
    have h2 := cstrOf_append_zero t (0 :: (t ++ 13 :: 10 :: R)) hz
    simpa using h2
  have hcstr_s : (current_line_cstr s).1 = t := by
    simp only [current_line_cstr, hpre, hdd, Bool.false_eq_true, if_false]
    rw [hbuf, hbeg, List.drop_left]
    have h2 := cstrOf_append_zero t (0 :: (R ++ Q)) hz
    simpa using h2
  have hlen4 : (current_line_length ({ s with buffer := T2 ++ (((t ++ [0]) ++ 0 :: (t ++ 13 :: 10 :: R)) ++ []), beg := T2.length, contentEnd := T2.length + (t.length + 2 + (t ++ 13 :: 10 :: R).length), en := T2.length + (t.length + 1), lineEnding := 2, lineno := s.lineno - 1 + 1 - 1 + 1 } : IStream)).1 = t.length + 1 := by
    simp only [current_line_length, hpre4]
    simp
    try omega
  have hlen_s : (current_line_length s).1 = t.length + 1 := by
    simp only [current_line_length, hpre]
    omega
  rw [hcstr4, hcstr_s, hlen4, hlen_s]
  exact ⟨rfl, rfl⟩

end JdkIstream


namespace JdkIstream

set_option maxRecDepth 40000 in
/-- C3 (amended): for every current line with a recorded terminator —
`\n` (`line_ending = 1`, text not ending in a carriage return) or
`\r\n` (`line_ending = 2`) — whose text is NUL-free, held at any
position of the buffer (junk `P` before it, pending content `R` after
it, trailing slack `Q`), the round trip `save_line()`, pushback of
`current_line_ending()`, pushback of the saved copy restores
`current_line()` and leaves `current_line_length()` unchanged, through
whatever buffer growth or compaction the pushbacks need; the
buffer-size hypothesis is the standing invariant that a stream always
owns at least its `SMALL_SIZE` embedded buffer.  For the final line of
an input without a trailing terminator (`line_ending = 0`) the round
trip instead doubles the line: from the input `ab` it produces the
current line `abab` of length 4. -/
theorem C3_roundtrip_amended (s : IStream) (P t R Q : List Nat)
    (hz : (0:Nat) ∉ t) (hnl : (10:Nat) ∉ t)
    (hbeg : s.beg = P.length)
    (hsmall : SMALL_SIZE ≤ s.buffer.length) :
    (s.lineEnding = 1 → s.buffer = P ++ ((t ++ 0 :: R) ++ Q) →
     s.en = s.beg + t.length →
     s.contentEnd = P.length + (t.length + 1 + R.length) →
     t.getLast? ≠ some 13 →
     (current_line_cstr (pushback_cstr (pushback_cstr
        (current_line_ending (save_line s).2).2
        (current_line_ending (save_line s).2).1)
        (save_line s).1)).1
       = (current_line_cstr s).1 ∧
     (current_line_length (pushback_cstr (pushback_cstr
        (current_line_ending (save_line s).2).2
        (current_line_ending (save_line s).2).1)
        (save_line s).1)).1
       = (current_line_length s).1) ∧
    (s.lineEnding = 2 → s.buffer = P ++ ((t ++ 0 :: 0 :: R) ++ Q) →
     s.en = s.beg + t.length + 1 →
     s.contentEnd = P.length + (t.length + 2 + R.length) →
     (current_line_cstr (pushback_cstr (pushback_cstr
        (current_line_ending (save_line s).2).2
        (current_line_ending (save_line s).2).1)
        (save_line s).1)).1
       = (current_line_cstr s).1 ∧
     (current_line_length (pushback_cstr (pushback_cstr
        (current_line_ending (save_line s).2).2
        (current_line_ending (save_line s).2).1)
        (save_line s).1)).1
       = (current_line_length s).1) ∧
    ((current_line_cstr (pushback_cstr (pushback_cstr
        (current_line_ending (save_line (mkStream [97, 98])).2).2
        (current_line_ending (save_line (mkStream [97, 98])).2).1)
        (save_line (mkStream [97, 98])).1)).1 = [97, 98, 97, 98] ∧
     (current_line_length (pushback_cstr (pushback_cstr
        (current_line_ending (save_line (mkStream [97, 98])).2).2
        (current_line_ending (save_line (mkStream [97, 98])).2).1)
        (save_line (mkStream [97, 98])).1)).1 = 4) :=
  ⟨fun hle hbuf hen hce hcr =>
     C3_roundtrip_gle1 s P t R Q hbuf hbeg hen hce hle hsmall hz hnl hcr,
   fun hle hbuf hen hce =>
     C3_roundtrip_gle2 s P t R Q hbuf hbeg hen hce hle hsmall hz hnl,
   by rfl, by rfl⟩

set_option maxRecDepth 40000 in
/-- Witness for C3: a 242-byte buffer (above `SMALL_SIZE`) holding the
newline-terminated line `ab` after 238 bytes of junk, with the pending
byte `c` after it. -/
theorem C3_roundtrip_amended_witness :
    (0:Nat) ∉ ([97, 98] : List Nat) ∧ (10:Nat) ∉ ([97, 98] : List Nat) ∧
    ({ input := none, buffer := List.replicate 238 7 ++ ([97, 98] ++ 0 :: [99]), contentEnd := 242, beg := 238, en := 240, position := 0, lineno := 1, lineEnding := 1 } : IStream).beg = (List.replicate 238 7 : List Nat).length ∧
    SMALL_SIZE ≤ ({ input := none, buffer := List.replicate 238 7 ++ ([97, 98] ++ 0 :: [99]), contentEnd := 242, beg := 238, en := 240, position := 0, lineno := 1, lineEnding := 1 } : IStream).buffer.length ∧
    ((({ input := none, buffer := List.replicate 238 7 ++ ([97, 98] ++ 0 :: [99]), contentEnd := 242, beg := 238, en := 240, position := 0, lineno := 1, lineEnding := 1 } : IStream).lineEnding = 1 →
      ({ input := none, buffer := List.replicate 238 7 ++ ([97, 98] ++ 0 :: [99]), contentEnd := 242, beg := 238, en := 240, position := 0, lineno := 1, lineEnding := 1 } : IStream).buffer = List.replicate 238 7 ++ (([97, 98] ++ 0 :: [99]) ++ []) →
      ({ input := none, buffer := List.replicate 238 7 ++ ([97, 98] ++ 0 :: [99]), contentEnd := 242, beg := 238, en := 240, position := 0, lineno := 1, lineEnding := 1 } : IStream).en = ({ input := none, buffer := List.replicate 238 7 ++ ([97, 98] ++ 0 :: [99]), contentEnd := 242, beg := 238, en := 240, position := 0, lineno := 1, lineEnding := 1 } : IStream).beg + ([97, 98] : List Nat).length →
      ({ input := none, buffer := List.replicate 238 7 ++ ([97, 98] ++ 0 :: [99]), contentEnd := 242, beg := 238, en := 240, position := 0, lineno := 1, lineEnding := 1 } : IStream).contentEnd = (List.replicate 238 7 : List Nat).length + (([97, 98] : List Nat).length + 1 + ([99] : List Nat).length) →
      ([97, 98] : List Nat).getLast? ≠ some 13 →
      (current_line_cstr (pushback_cstr (pushback_cstr
        (current_line_ending (save_line ({ input := none, buffer := List.replicate 238 7 ++ ([97, 98] ++ 0 :: [99]), contentEnd := 242, beg := 238, en := 240, position := 0, lineno := 1, lineEnding := 1 } : IStream)).2).2
        (current_line_ending (save_line ({ input := none, buffer := List.replicate 238 7 ++ ([97, 98] ++ 0 :: [99]), contentEnd := 242, beg := 238, en := 240, position := 0, lineno := 1, lineEnding := 1 } : IStream)).2).1)
        (save_line ({ input := none, buffer := List.replicate 238 7 ++ ([97, 98] ++ 0 :: [99]), contentEnd := 242, beg := 238, en := 240, position := 0, lineno := 1, lineEnding := 1 } : IStream)).1)).1
        = (current_line_cstr ({ input := none, buffer := List.replicate 238 7 ++ ([97, 98] ++ 0 :: [99]), contentEnd := 242, beg := 238, en := 240, position := 0, lineno := 1, lineEnding := 1 } : IStream)).1 ∧
      (current_line_length (pushback_cstr (pushback_cstr
        (current_line_ending (save_line ({ input := none, buffer := List.replicate 238 7 ++ ([97, 98] ++ 0 :: [99]), contentEnd := 242, beg := 238, en := 240, position := 0, lineno := 1, lineEnding := 1 } : IStream)).2).2
        (current_line_ending (save_line ({ input := none, buffer := List.replicate 238 7 ++ ([97, 98] ++ 0 :: [99]), contentEnd := 242, beg := 238, en := 240, position := 0, lineno := 1, lineEnding := 1 } : IStream)).2).1)
        (save_line ({ input := none, buffer := List.replicate 238 7 ++ ([97, 98] ++ 0 :: [99]), contentEnd := 242, beg := 238, en := 240, position := 0, lineno := 1, lineEnding := 1 } : IStream)).1)).1
        = (current_line_length ({ input := none, buffer := List.replicate 238 7 ++ ([97, 98] ++ 0 :: [99]), contentEnd := 242, beg := 238, en := 240, position := 0, lineno := 1, lineEnding := 1 } : IStream)).1) ∧
     (({ input := none, buffer := List.replicate 238 7 ++ ([97, 98] ++ 0 :: [99]), contentEnd := 242, beg := 238, en := 240, position := 0, lineno := 1, lineEnding := 1 } : IStream).lineEnding = 2 →
      ({ input := none, buffer := List.replicate 238 7 ++ ([97, 98] ++ 0 :: [99]), contentEnd := 242, beg := 238, en := 240, position := 0, lineno := 1, lineEnding := 1 } : IStream).buffer = List.replicate 238 7 ++ (([97, 98] ++ 0 :: 0 :: [99]) ++ []) →
      ({ input := none, buffer := List.replicate 238 7 ++ ([97, 98] ++ 0 :: [99]), contentEnd := 242, beg := 238, en := 240, position := 0, lineno := 1, lineEnding := 1 } : IStream).en = ({ input := none, buffer := List.replicate 238 7 ++ ([97, 98] ++ 0 :: [99]), contentEnd := 242, beg := 238, en := 240, position := 0, lineno := 1, lineEnding := 1 } : IStream).beg + ([97, 98] : List Nat).length + 1 →
      ({ input := none, buffer := List.replicate 238 7 ++ ([97, 98] ++ 0 :: [99]), contentEnd := 242, beg := 238, en := 240, position := 0, lineno := 1, lineEnding := 1 } : IStream).contentEnd = (List.replicate 238 7 : List Nat).length + (([97, 98] : List Nat).length + 2 + ([99] : List Nat).length) →
      (current_line_cstr (pushback_cstr (pushback_cstr
        (current_line_ending (save_line ({ input := none, buffer := List.replicate 238 7 ++ ([97, 98] ++ 0 :: [99]), contentEnd := 242, beg := 238, en := 240, position := 0, lineno := 1, lineEnding := 1 } : IStream)).2).2
        (current_line_ending (save_line ({ input := none, buffer := List.replicate 238 7 ++ ([97, 98] ++ 0 :: [99]), contentEnd := 242, beg := 238, en := 240, position := 0, lineno := 1, lineEnding := 1 } : IStream)).2).1)
        (save_line ({ input := none, buffer := List.replicate 238 7 ++ ([97, 98] ++ 0 :: [99]), contentEnd := 242, beg := 238, en := 240, position := 0, lineno := 1, lineEnding := 1 } : IStream)).1)).1
        = (current_line_cstr ({ input := none, buffer := List.replicate 238 7 ++ ([97, 98] ++ 0 :: [99]), contentEnd := 242, beg := 238, en := 240, position := 0, lineno := 1, lineEnding := 1 } : IStream)).1 ∧
      (current_line_length (pushback_cstr (pushback_cstr
        (current_line_ending (save_line ({ input := none, buffer := List.replicate 238 7 ++ ([97, 98] ++ 0 :: [99]), contentEnd := 242, beg := 238, en := 240, position := 0, lineno := 1, lineEnding := 1 } : IStream)).2).2
        (current_line_ending (save_line ({ input := none, buffer := List.replicate 238 7 ++ ([97, 98] ++ 0 :: [99]), contentEnd := 242, beg := 238, en := 240, position := 0, lineno := 1, lineEnding := 1 } : IStream)).2).1)
        (save_line ({ input := none, buffer := List.replicate 238 7 ++ ([97, 98] ++ 0 :: [99]), contentEnd := 242, beg := 238, en := 240, position := 0, lineno := 1, lineEnding := 1 } : IStream)).1)).1
        = (current_line_length ({ input := none, buffer := List.replicate 238 7 ++ ([97, 98] ++ 0 :: [99]), contentEnd := 242, beg := 238, en := 240, position := 0, lineno := 1, lineEnding := 1 } : IStream)).1) ∧
     ((current_line_cstr (pushback_cstr (pushback_cstr
        (current_line_ending (save_line (mkStream [97, 98])).2).2
        (current_line_ending (save_line (mkStream [97, 98])).2).1)
        (save_line (mkStream [97, 98])).1)).1 = [97, 98, 97, 98] ∧
      (current_line_length (pushback_cstr (pushback_cstr
        (current_line_ending (save_line (mkStream [97, 98])).2).2
        (current_line_ending (save_line (mkStream [97, 98])).2).1)
        (save_line (mkStream [97, 98])).1)).1 = 4)) :=
  ⟨by decide, by decide, by decide, by decide,
   C3_roundtrip_amended { input := none, buffer := List.replicate 238 7 ++ ([97, 98] ++ 0 :: [99]), contentEnd := 242, beg := 238, en := 240, position := 0, lineno := 1, lineEnding := 1 }
     (List.replicate 238 7) [97, 98] [99] []
     (by decide) (by decide) (by decide) (by decide)⟩

set_option maxRecDepth 40000 in
/-- Counterexample to C3 as stated: for the line `ab` of an input with
no trailing line terminator (`line_ending = 0`), the round trip
produces the current line `abab` of length 4 instead of `ab` of
length 2 — the pushback prepends the text to the still-pending copy of
itself. -/
theorem C3_roundtrip_counterexample :
    (current_line_cstr (mkStream [97, 98])).1 = [97, 98] ∧
    (current_line_length (mkStream [97, 98])).1 = 2 ∧
    (current_line_cstr (pushback_cstr (pushback_cstr
        (current_line_ending (save_line (mkStream [97, 98])).2).2
        (current_line_ending (save_line (mkStream [97, 98])).2).1)
        (save_line (mkStream [97, 98])).1)).1 = [97, 98, 97, 98] ∧
    (current_line_length (pushback_cstr (pushback_cstr
        (current_line_ending (save_line (mkStream [97, 98])).2).2
        (current_line_ending (save_line (mkStream [97, 98])).2).1)
        (save_line (mkStream [97, 98])).1)).1 = 4 :=
  ⟨by rfl, by rfl, by rfl, by rfl⟩

end JdkIstream
